import Mathlib

/-!
Verification of the `sveltekit-auth` repository.

This file shallowly embeds the parts of the repository that the checked
claims are about:

* `src/lib/utils/crypto.ts` — base64 / base64url codec (`btoa`/`atob` are
  platform primitives and are modelled concretely as RFC 4648 base64 over
  byte lists; HMAC-SHA256 is a platform primitive and is kept as an
  uninterpreted function parameter of the theorems),
* `src/lib/utils/jwt.ts` — `createJWT` / `verifyJWT`,
* `src/lib/utils/session.ts` — `createSession`, `decodeSession`,
  `shouldUpdateSession`,
* `src/lib/utils/password.ts` — `hashPassword` / `verifyPassword`
  (PBKDF2 is a platform primitive kept as a function parameter; the
  optional `@node-rs/argon2` module is modelled as an optional record of
  functions),
* `src/lib/middleware/index.ts` — `createProtectedRoutesMiddleware`,
* `src/lib/middleware/routes.ts` — `handleSignIn`, `handleOAuthCallback`
  (network fetches are modelled as oracle outcomes passed in as data).

Strings are modelled as `List Char` where character-level manipulation
matters, bytes as `List Nat` (with explicit `< 256` bounds where the
JavaScript code relies on `Uint8Array` truncation).  JavaScript numbers
appearing as Unix timestamps are modelled as `Int`, with JavaScript
truthiness (`0` is falsy, `NaN` comparisons are false) made explicit at
each use site.
-/

namespace B64

/-- The RFC 4648 base64 alphabet, as used by the platform `btoa`. -/
def b64Chars : List Char :=
  ['A', 'B', 'C', 'D', 'E', 'F', 'G', 'H', 'I', 'J', 'K', 'L', 'M',
   'N', 'O', 'P', 'Q', 'R', 'S', 'T', 'U', 'V', 'W', 'X', 'Y', 'Z',
   'a', 'b', 'c', 'd', 'e', 'f', 'g', 'h', 'i', 'j', 'k', 'l', 'm',
   'n', 'o', 'p', 'q', 'r', 's', 't', 'u', 'v', 'w', 'x', 'y', 'z',
   '0', '1', '2', '3', '4', '5', '6', '7', '8', '9', '+', '/']

/-- Character for a 6-bit group. -/
def b64Char (n : Nat) : Char := b64Chars.getD n 'A'

/-- Index of a base64 character (`none` for characters outside the
alphabet, in particular for `'='`). -/
def b64CharInv (c : Char) : Option Nat := b64Chars.indexOf? c

/-- Models the platform `btoa` applied to a byte string: standard base64
with `'='` padding.  Input bytes are expected to be `< 256`. -/
def btoaBytes : List Nat → List Char
  | [] => []
  | [b1] => [b64Char (b1 / 4), b64Char (b1 % 4 * 16), '=', '=']
  | [b1, b2] => [b64Char (b1 / 4), b64Char (b1 % 4 * 16 + b2 / 16),
                 b64Char (b2 % 16 * 4), '=']
  | b1 :: b2 :: b3 :: rest =>
      b64Char (b1 / 4) :: b64Char (b1 % 4 * 16 + b2 / 16) ::
      b64Char (b2 % 16 * 4 + b3 / 64) :: b64Char (b3 % 64) :: btoaBytes rest

/-- Models the platform `atob`: decodes base64, `none` models the
`InvalidCharacterError` exception on malformed input. -/
def atobChars : List Char → Option (List Nat)
  | [] => some []
  | c1 :: c2 :: c3 :: c4 :: rest =>
      match b64CharInv c1, b64CharInv c2 with
      | some n1, some n2 =>
          if c3 = '=' then
            if c4 = '=' ∧ rest = [] then some [n1 * 4 + n2 / 16] else none
          else
            match b64CharInv c3 with
            | some n3 =>
                if c4 = '=' then
                  if rest = [] then
                    some [n1 * 4 + n2 / 16, n2 % 16 * 16 + n3 / 4]
                  else none
                else
                  match b64CharInv c4, atobChars rest with
                  | some n4, some bs =>
                      some ((n1 * 4 + n2 / 16) :: (n2 % 16 * 16 + n3 / 4) ::
                            (n3 % 4 * 64 + n4) :: bs)
                  | _, _ => none
            | none => none
      | _, _ => none
  | _ => none

theorem b64CharInv_b64Char : ∀ n < 64, b64CharInv (b64Char n) = some n := by
  decide

theorem b64Char_ne_eq : ∀ n < 64, b64Char n ≠ '=' := by decide

theorem b64Char_ne_dot : ∀ n < 64, b64Char n ≠ '.' := by decide

theorem b64Char_ne_dash : ∀ n < 64, b64Char n ≠ '-' := by decide

theorem b64Char_ne_underscore : ∀ n < 64, b64Char n ≠ '_' := by decide

/-- `atob` is a left inverse of `btoa` on byte strings. -/
theorem atobChars_btoaBytes (bs : List Nat) (h : ∀ b ∈ bs, b < 256) :
    atobChars (btoaBytes bs) = some bs := by
  induction bs using btoaBytes.induct with
  | case1 => simp [btoaBytes, atobChars]
  | case2 b1 =>
      have hb1 : b1 < 256 := h b1 (by simp)
      have h1 := b64CharInv_b64Char (b1 / 4) (by omega)
      have h2 := b64CharInv_b64Char (b1 % 4 * 16) (by omega)
      simp only [btoaBytes, atobChars, h1, h2]
      simp
      omega
  | case3 b1 b2 =>
      have hb1 : b1 < 256 := h b1 (by simp)
      have hb2 : b2 < 256 := h b2 (by simp)
      have h1 := b64CharInv_b64Char (b1 / 4) (by omega)
      have h2 := b64CharInv_b64Char (b1 % 4 * 16 + b2 / 16) (by omega)
      have h3 := b64CharInv_b64Char (b2 % 16 * 4) (by omega)
      have hne3 : b64Char (b2 % 16 * 4) ≠ '=' := b64Char_ne_eq _ (by omega)
      simp only [btoaBytes, atobChars, h1, h2]
      rw [if_neg hne3]
      simp only [h3]
      simp
      omega
  | case4 b1 b2 b3 rest ih =>
      have hb1 : b1 < 256 := h b1 (by simp)
      have hb2 : b2 < 256 := h b2 (by simp)
      have hb3 : b3 < 256 := h b3 (by simp)
      have hrest : ∀ b ∈ rest, b < 256 := fun b hb => h b (by simp [hb])
      have h1 := b64CharInv_b64Char (b1 / 4) (by omega)
      have h2 := b64CharInv_b64Char (b1 % 4 * 16 + b2 / 16) (by omega)
      have h3 := b64CharInv_b64Char (b2 % 16 * 4 + b3 / 64) (by omega)
      have h4 := b64CharInv_b64Char (b3 % 64) (by omega)
      have hne3 : b64Char (b2 % 16 * 4 + b3 / 64) ≠ '=' :=
        b64Char_ne_eq _ (by omega)
      have hne4 : b64Char (b3 % 64) ≠ '=' := b64Char_ne_eq _ (by omega)
      simp only [btoaBytes, atobChars, h1, h2]
      rw [if_neg hne3]
      simp only [h3]
      rw [if_neg hne4]
      simp only [h4, ih hrest]
      simp
      omega

/-- Every character of `s` is a base64 alphabet character. -/
def isB64Body (s : List Char) : Prop := ∀ c ∈ s, ∃ n, n < 64 ∧ c = b64Char n

/-- Structure of `btoa` output: alphabet characters followed by `p ≤ 2`
padding characters `'='`, total length divisible by 4. -/
theorem btoaBytes_shape (bs : List Nat) (h : ∀ b ∈ bs, b < 256) :
    ∃ body p, btoaBytes bs = body ++ List.replicate p '=' ∧ p ≤ 2 ∧
      (body.length + p) % 4 = 0 ∧ isB64Body body := by
  induction bs using btoaBytes.induct with
  | case1 =>
      exact ⟨[], 0, by simp [btoaBytes], by omega, by simp, by simp [isB64Body]⟩
  | case2 b1 =>
      have hb1 : b1 < 256 := h b1 (by simp)
      refine ⟨[b64Char (b1 / 4), b64Char (b1 % 4 * 16)], 2, rfl, by omega,
        by simp, ?_⟩
      intro c hc
      simp only [List.mem_cons, List.not_mem_nil, or_false] at hc
      rcases hc with h | h
      · exact ⟨b1 / 4, by omega, h⟩
      · exact ⟨b1 % 4 * 16, by omega, h⟩
  | case3 b1 b2 =>
      have hb1 : b1 < 256 := h b1 (by simp)
      have hb2 : b2 < 256 := h b2 (by simp)
      refine ⟨[b64Char (b1 / 4), b64Char (b1 % 4 * 16 + b2 / 16),
        b64Char (b2 % 16 * 4)], 1, rfl, by omega, by simp, ?_⟩
      intro c hc
      simp only [List.mem_cons, List.not_mem_nil, or_false] at hc
      rcases hc with h | h | h
      · exact ⟨b1 / 4, by omega, h⟩
      · exact ⟨b1 % 4 * 16 + b2 / 16, by omega, h⟩
      · exact ⟨b2 % 16 * 4, by omega, h⟩
  | case4 b1 b2 b3 rest ih =>
      have hb1 : b1 < 256 := h b1 (by simp)
      have hb2 : b2 < 256 := h b2 (by simp)
      have hb3 : b3 < 256 := h b3 (by simp)
      have hrest : ∀ b ∈ rest, b < 256 := fun b hb => h b (by simp [hb])
      obtain ⟨body, p, hb, hp2, hlen, hbody⟩ := ih hrest
      refine ⟨b64Char (b1 / 4) :: b64Char (b1 % 4 * 16 + b2 / 16) ::
        b64Char (b2 % 16 * 4 + b3 / 64) :: b64Char (b3 % 64) :: body, p, ?_,
        hp2, ?_, ?_⟩
      · simp [btoaBytes, hb]
      · simp only [List.length_cons]
        omega
      · intro c hc
        simp only [List.mem_cons] at hc
        rcases hc with h | h | h | h | h
        · exact ⟨b1 / 4, by omega, h⟩
        · exact ⟨b1 % 4 * 16 + b2 / 16, by omega, h⟩
        · exact ⟨b2 % 16 * 4 + b3 / 64, by omega, h⟩
        · exact ⟨b3 % 64, by omega, h⟩
        · exact hbody c h

/-- Models `.replace(/\+/g, '-').replace(/\//g, '_')` (the two chained
global single-character replacements in the source). -/
def mapToUrl (s : List Char) : List Char :=
  s.map (fun c => if c = '+' then '-' else if c = '/' then '_' else c)

/-- Models the two chained reverse replacements: dash back to plus and
underscore back to slash. -/
def mapFromUrl (s : List Char) : List Char :=
  s.map (fun c => if c = '-' then '+' else if c = '_' then '/' else c)

/-- Models `.replace(/=+$/, '')`: strip all trailing `'='`. -/
def dropTrailingEq (s : List Char) : List Char :=
  (s.reverse.dropWhile (fun c => c == '=')).reverse

/-- Models `s + '='.repeat((4 - (s.length % 4)) % 4)`. -/
def padTo4 (s : List Char) : List Char :=
  s ++ List.replicate ((4 - s.length % 4) % 4) '='

theorem mapToUrl_append (a b : List Char) :
    mapToUrl (a ++ b) = mapToUrl a ++ mapToUrl b := by
  simp [mapToUrl]

theorem mapToUrl_replicate_eq (p : Nat) :
    mapToUrl (List.replicate p '=') = List.replicate p '=' := by
  simp [mapToUrl, List.map_replicate]

theorem mapFromUrl_append (a b : List Char) :
    mapFromUrl (a ++ b) = mapFromUrl a ++ mapFromUrl b := by
  simp [mapFromUrl]

theorem mapFromUrl_replicate_eq (p : Nat) :
    mapFromUrl (List.replicate p '=') = List.replicate p '=' := by
  simp [mapFromUrl, List.map_replicate]

theorem mapFromUrl_length (s : List Char) :
    (mapFromUrl s).length = s.length := by
  simp [mapFromUrl]

theorem mapFromUrl_mapToUrl (body : List Char) (h : isB64Body body) :
    mapFromUrl (mapToUrl body) = body := by
  induction body with
  | nil => rfl
  | cons a l ih =>
      have hrest : isB64Body l := fun c hc => h c (List.mem_cons_of_mem _ hc)
      obtain ⟨n, hn, ha⟩ := h a (List.mem_cons_self _ _)
      have hd : a ≠ '-' := ha ▸ b64Char_ne_dash n hn
      have hu : a ≠ '_' := ha ▸ b64Char_ne_underscore n hn
      show mapFromUrl ((if a = '+' then '-' else if a = '/' then '_' else a)
        :: mapToUrl l) = a :: l
      rw [show ∀ x xs, mapFromUrl (x :: xs) =
        (if x = '-' then '+' else if x = '_' then '/' else x) :: mapFromUrl xs
        from fun _ _ => rfl]
      rw [ih hrest]
      congr 1
      by_cases h1 : a = '+'
      · simp [h1]
      · by_cases h2 : a = '/'
        · simp [h1, h2]
        · simp [h1, h2, hd, hu]

theorem dropWhile_eq_of_forall_not {p : Char → Bool} (l : List Char)
    (h : ∀ c ∈ l, p c = false) : l.dropWhile p = l := by
  cases l with
  | nil => rfl
  | cons a l => simp [List.dropWhile_cons, h a (by simp)]

theorem dropWhile_replicate_append {p : Char → Bool} (n : Nat)
    (c : Char) (hc : p c = true) (l : List Char) :
    (List.replicate n c ++ l).dropWhile p = l.dropWhile p := by
  induction n with
  | zero => simp
  | succ n ih => simp [List.replicate_succ, List.dropWhile_cons, hc, ih]

theorem dropTrailingEq_append_replicate (x : List Char) (p : Nat)
    (h : ∀ c ∈ x, c ≠ '=') :
    dropTrailingEq (x ++ List.replicate p '=') = x := by
  unfold dropTrailingEq
  rw [List.reverse_append, List.reverse_replicate,
    dropWhile_replicate_append p '=' (by simp),
    dropWhile_eq_of_forall_not, List.reverse_reverse]
  intro c hc
  simp only [beq_eq_false_iff_ne, ne_eq]
  exact h c (List.mem_reverse.mp hc)

theorem mapToUrl_no_eq (body : List Char) (h : isB64Body body) :
    ∀ c ∈ mapToUrl body, c ≠ '=' := by
  intro c hc
  simp only [mapToUrl, List.mem_map] at hc
  obtain ⟨a, ha, rfl⟩ := hc
  obtain ⟨n, hn, rfl⟩ := h a ha
  by_cases h1 : b64Char n = '+'
  · simp [h1]
  · by_cases h2 : b64Char n = '/'
    · simp [h1, h2]
    · simp [h1, h2, b64Char_ne_eq n hn]

theorem mapToUrl_no_dot (body : List Char) (h : isB64Body body) :
    ∀ c ∈ mapToUrl body, c ≠ '.' := by
  intro c hc
  simp only [mapToUrl, List.mem_map] at hc
  obtain ⟨a, ha, rfl⟩ := hc
  obtain ⟨n, hn, rfl⟩ := h a ha
  by_cases h1 : b64Char n = '+'
  · simp [h1]
  · by_cases h2 : b64Char n = '/'
    · simp [h1, h2]
    · simp [h1, h2, b64Char_ne_dot n hn]

theorem mapToUrl_length (s : List Char) : (mapToUrl s).length = s.length := by
  simp [mapToUrl]

/-- Re-padding and reverse-mapping the base64url form of a `btoa` output
restores it exactly (this is the signature path of `verifyJWT` undoing
what `createJWT` did). -/
theorem padTo4_mapFromUrl_dropTrailingEq_mapToUrl (bs : List Nat)
    (h : ∀ b ∈ bs, b < 256) :
    padTo4 (mapFromUrl (dropTrailingEq (mapToUrl (btoaBytes bs)))) =
      btoaBytes bs := by
  obtain ⟨body, p, hshape, hp2, hlen, hbody⟩ := btoaBytes_shape bs h
  rw [hshape, mapToUrl_append, mapToUrl_replicate_eq,
    dropTrailingEq_append_replicate _ _ (mapToUrl_no_eq body hbody),
    mapFromUrl_mapToUrl body hbody]
  unfold padTo4
  congr 1
  congr 1
  omega

/-- `base64UrlEncode` from `src/lib/utils/crypto.ts`: `btoa`, then map
plus to dash and slash to underscore, then strip trailing padding. -/
def base64UrlEncode (bs : List Nat) : List Char :=
  dropTrailingEq (mapToUrl (btoaBytes bs))

/-- `base64UrlDecode` from `src/lib/utils/crypto.ts`: re-pad to a multiple
of 4, map dash back to plus and underscore back to slash, then `atob`
(`none` models the exception on malformed input). -/
def base64UrlDecode (s : List Char) : Option (List Nat) :=
  atobChars (mapFromUrl (padTo4 s))

theorem mapFromUrl_padTo4_comm (s : List Char) :
    mapFromUrl (padTo4 s) = padTo4 (mapFromUrl s) := by
  unfold padTo4
  rw [mapFromUrl_append, mapFromUrl_replicate_eq, mapFromUrl_length]

/-- `base64UrlDecode` inverts `base64UrlEncode` on byte strings. -/
theorem base64UrlDecode_encode (bs : List Nat) (h : ∀ b ∈ bs, b < 256) :
    base64UrlDecode (base64UrlEncode bs) = some bs := by
  unfold base64UrlDecode base64UrlEncode
  rw [mapFromUrl_padTo4_comm,
    padTo4_mapFromUrl_dropTrailingEq_mapToUrl bs h, atobChars_btoaBytes bs h]

theorem mem_dropTrailingEq (s : List Char) (c : Char)
    (hc : c ∈ dropTrailingEq s) : c ∈ s := by
  unfold dropTrailingEq at hc
  rw [List.mem_reverse] at hc
  have := (List.dropWhile_sublist (l := s.reverse)
    (p := fun c => c == '=')).subset hc
  exact List.mem_reverse.mp this

/-- The characters of a `base64UrlEncode` output never include `'.'`. -/
theorem base64UrlEncode_no_dot (bs : List Nat) (h : ∀ b ∈ bs, b < 256) :
    ∀ c ∈ base64UrlEncode bs, c ≠ '.' := by
  intro c hc
  obtain ⟨body, p, hshape, hp2, hlen, hbody⟩ := btoaBytes_shape bs h
  have hc2 := mem_dropTrailingEq _ _ hc
  rw [hshape, mapToUrl_append] at hc2
  rcases List.mem_append.mp hc2 with h1 | h1
  · exact mapToUrl_no_dot body hbody c h1
  · rw [mapToUrl_replicate_eq] at h1
    have := List.eq_of_mem_replicate h1
    simp [this]

end B64

namespace JS

/-- Models the JavaScript `String.prototype.split` with a single-character
separator (empty segments preserved, `""` splits to `[""]`). -/
def splitOnChar (sep : Char) : List Char → List (List Char)
  | [] => [[]]
  | c :: rest =>
      if c = sep then [] :: splitOnChar sep rest
      else
        match splitOnChar sep rest with
        | [] => [[c]]
        | part :: parts => (c :: part) :: parts

theorem splitOnChar_ne_nil (sep : Char) (l : List Char) :
    splitOnChar sep l ≠ [] := by
  cases l with
  | nil => simp [splitOnChar]
  | cons c rest =>
      by_cases h : c = sep
      · simp [splitOnChar, h]
      · simp only [splitOnChar, if_neg h]
        cases splitOnChar sep rest <;> simp

/-- Splitting a separator-free string yields a single segment. -/
theorem splitOnChar_no_sep (sep : Char) (l : List Char)
    (h : ∀ c ∈ l, c ≠ sep) : splitOnChar sep l = [l] := by
  induction l with
  | nil => rfl
  | cons c rest ih =>
      have hc : c ≠ sep := h c (by simp)
      have hrest : ∀ x ∈ rest, x ≠ sep := fun x hx => h x (by simp [hx])
      simp only [splitOnChar, if_neg hc, ih hrest]

/-- Splitting past a separator-free prefix. -/
theorem splitOnChar_append (sep : Char) (a t : List Char)
    (h : ∀ c ∈ a, c ≠ sep) :
    splitOnChar sep (a ++ sep :: t) = a :: splitOnChar sep t := by
  induction a with
  | nil => simp [splitOnChar]
  | cons c rest ih =>
      have hc : c ≠ sep := h c (by simp)
      have hrest : ∀ x ∈ rest, x ≠ sep := fun x hx => h x (by simp [hx])
      show splitOnChar sep (c :: (rest ++ sep :: t)) =
        (c :: rest) :: splitOnChar sep t
      simp only [splitOnChar, if_neg hc, ih hrest]

end JS

namespace JWT

/-- Self-delimiting byte encoding of a natural number, a building block of
the `JSON.stringify` model below. -/
def encNat (n : Nat) : List Nat := List.replicate n 1 ++ [0]

def decNat : List Nat → Option (Nat × List Nat)
  | 0 :: rest => some (0, rest)
  | 1 :: rest =>
      match decNat rest with
      | some (n, r) => some (n + 1, r)
      | none => none
  | _ => none

theorem decNat_encNat (n : Nat) (l : List Nat) :
    decNat (encNat n ++ l) = some (n, l) := by
  induction n with
  | zero => rfl
  | succ n ih =>
      show decNat (1 :: (encNat n ++ l)) = some (n + 1, l)
      simp [decNat, ih]

theorem encNat_lt (n : Nat) : ∀ b ∈ encNat n, b < 256 := by
  intro b hb
  simp only [encNat, List.mem_append, List.mem_replicate,
    List.mem_singleton] at hb
  rcases hb with ⟨_, rfl⟩ | rfl <;> omega

def encInt : Int → List Nat
  | Int.ofNat n => 0 :: encNat n
  | Int.negSucc n => 1 :: encNat n

def decInt : List Nat → Option (Int × List Nat)
  | 0 :: rest => (decNat rest).map fun q => (Int.ofNat q.1, q.2)
  | 1 :: rest => (decNat rest).map fun q => (Int.negSucc q.1, q.2)
  | _ => none

theorem decInt_encInt (i : Int) (l : List Nat) :
    decInt (encInt i ++ l) = some (i, l) := by
  cases i <;> simp [encInt, decInt, decNat_encNat]

theorem encInt_lt (i : Int) : ∀ b ∈ encInt i, b < 256 := by
  cases i <;> intro b hb <;> simp only [encInt, List.mem_cons] at hb <;>
    (rcases hb with rfl | hb; omega; exact encNat_lt _ b hb)

def encOptInt : Option Int → List Nat
  | none => [0]
  | some i => 1 :: encInt i

def decOptInt : List Nat → Option (Option Int × List Nat)
  | 0 :: rest => some (none, rest)
  | 1 :: rest => (decInt rest).map fun q => (some q.1, q.2)
  | _ => none

theorem decOptInt_encOptInt (o : Option Int) (l : List Nat) :
    decOptInt (encOptInt o ++ l) = some (o, l) := by
  cases o <;> simp [encOptInt, decOptInt, decInt_encInt]

theorem encOptInt_lt (o : Option Int) : ∀ b ∈ encOptInt o, b < 256 := by
  cases o with
  | none => intro b hb; simp only [encOptInt, List.mem_singleton] at hb; omega
  | some i =>
      intro b hb
      simp only [encOptInt, List.mem_cons] at hb
      rcases hb with rfl | hb
      · omega
      · exact encInt_lt i b hb

/-- The token payload object of `jwt.ts` (`JWTPayload`): the `iat` and
`exp` members that the code reads and writes, plus the remaining JSON
content, which `jwt.ts` never inspects and which is kept abstract as
`α`. -/
structure JWTPayload (α : Type) where
  iat : Option Int
  exp : Option Int
  rest : α
deriving DecidableEq, Repr

/-- Models `encoder.encode(JSON.stringify(tokenPayload))`: an injective
byte serialisation of the payload object.  `JSON.stringify` and UTF-8
encoding are platform primitives; the serialisation of the
non-`iat`/`exp` content is a parameter `restEnc`.  A member whose value
is `undefined` (`none`) is dropped by `JSON.stringify`, which the
self-delimiting `encOptInt` encoding mirrors faithfully: parsing
recovers exactly the `Option Int` that was serialised. -/
def encodePayload (restEnc : α → List Nat) (p : JWTPayload α) : List Nat :=
  encOptInt p.iat ++ (encOptInt p.exp ++ restEnc p.rest)

/-- Models `JSON.parse(decoder.decode(bytes))` read back through the
`as JWTPayload` view: the partial inverse of `encodePayload`. -/
def decodePayload (restDec : List Nat → Option (α × List Nat))
    (l : List Nat) : Option (JWTPayload α) :=
  match decOptInt l with
  | none => none
  | some (iat, r1) =>
      match decOptInt r1 with
      | none => none
      | some (exp, r2) =>
          match restDec r2 with
          | none => none
          | some (a, r3) => if r3 = [] then some ⟨iat, exp, a⟩ else none

/-- Contract of the parameter pair `(restEnc, restDec)`: a prefix-correct
codec for the payload content other than `iat`/`exp`. -/
def RestCodec (restEnc : α → List Nat)
    (restDec : List Nat → Option (α × List Nat)) : Prop :=
  ∀ (a : α) (l : List Nat), restDec (restEnc a ++ l) = some (a, l)

theorem decodePayload_encodePayload (restEnc : α → List Nat)
    (restDec : List Nat → Option (α × List Nat))
    (hcodec : RestCodec restEnc restDec) (p : JWTPayload α) :
    decodePayload restDec (encodePayload restEnc p) = some p := by
  have hr : restDec (restEnc p.rest) = some (p.rest, []) := by
    have := hcodec p.rest []
    rwa [List.append_nil] at this
  simp [encodePayload, decodePayload, decOptInt_encOptInt, hr]

theorem encodePayload_lt (restEnc : α → List Nat)
    (hrenc : ∀ a, ∀ b ∈ restEnc a, b < 256) (p : JWTPayload α) :
    ∀ b ∈ encodePayload restEnc p, b < 256 := by
  intro b hb
  simp only [encodePayload, List.mem_append] at hb
  rcases hb with h | h | h
  · exact encOptInt_lt _ b h
  · exact encOptInt_lt _ b h
  · exact hrenc _ b h

/-- UTF-8 bytes of the constant JSON header
`\x7b"alg":"HS256","typ":"JWT"\x7d` built by `createJWT`. -/
def headerBytes : List Nat :=
  ("\x7b\"alg\":\"HS256\",\"typ\":\"JWT\"\x7d".toList).map Char.toNat

theorem headerBytes_lt : ∀ b ∈ headerBytes, b < 256 := by decide

/-- The `tokenPayload` object built inside `createJWT`
(`jwt.ts` lines 35-40): `iat` is the caller's value or else `now`
(`payload.iat ?? now`); `exp` is the caller's value or else, when the
`expiresIn` option is present and truthy (nonzero), `now + expiresIn`
(`payload.exp ?? (options.expiresIn ? now + options.expiresIn :
undefined)`). -/
def mkTokenPayload (payload : JWTPayload α) (expiresIn : Option Int)
    (now : Int) : JWTPayload α where
  iat := some (payload.iat.getD now)
  exp :=
    match payload.exp with
    | some e => some e
    | none =>
        match expiresIn with
        | some n => if n = 0 then none else some (now + n)
        | none => none
  rest := payload.rest

/-- `createJWT` from `src/lib/utils/jwt.ts`.  `hmac` is the platform
HMAC-SHA256 primitive (`sign` returns `btoa` of its output bytes);
`restEnc` is the `JSON.stringify` model for the abstract payload
content; `now` is `Math.floor(Date.now() / 1000)`. -/
def createJWT (hmac : List Char → List Char → List Nat)
    (restEnc : α → List Nat) (payload : JWTPayload α) (secret : List Char)
    (expiresIn : Option Int) (now : Int) : List Char :=
  let tokenPayload := mkTokenPayload payload expiresIn now
  let headerBase64 := B64.base64UrlEncode headerBytes
  let payloadBase64 := B64.base64UrlEncode (encodePayload restEnc tokenPayload)
  let signatureInput := headerBase64 ++ '.' :: payloadBase64
  let signatureBase64 :=
    B64.dropTrailingEq (B64.mapToUrl (B64.btoaBytes (hmac signatureInput secret)))
  headerBase64 ++ '.' :: payloadBase64 ++ '.' :: signatureBase64

/-- `verifyJWT` from `src/lib/utils/jwt.ts`.  Returning `none` models
both explicit `return null` paths and exceptions swallowed by the
function's `try/catch` (bad base64 in `atob`, `JSON.parse` failure).
The expiry check models the JavaScript truthiness guard
`payload.exp && payload.exp < Math.floor(Date.now() / 1000)`: an `exp`
equal to `0` is falsy and skips the check. -/
def verifyJWT (hmac : List Char → List Char → List Nat)
    (restDec : List Nat → Option (α × List Nat)) (token : List Char)
    (secret : List Char) (now : Int) : Option (JWTPayload α) :=
  match JS.splitOnChar '.' token with
  | [headerBase64, payloadBase64, signatureBase64] =>
      let signatureInput := headerBase64 ++ '.' :: payloadBase64
      let signature := B64.mapFromUrl signatureBase64
      let paddedSignature := B64.padTo4 signature
      match B64.atobChars paddedSignature with
      | none => none
      | some signatureBytes =>
          if hmac signatureInput secret = signatureBytes then
            match B64.base64UrlDecode payloadBase64 with
            | none => none
            | some payloadBytes =>
                match decodePayload restDec payloadBytes with
                | none => none
                | some payload =>
                    match payload.exp with
                    | some e => if e ≠ 0 ∧ e < now then none else some payload
                    | none => some payload
          else none
  | _ => none

end JWT

namespace JWT

/-- Workhorse: verifying a token produced by `createJWT` with the same
secret reduces exactly to the expiry check on the embedded
`tokenPayload`. -/
theorem verifyJWT_createJWT {α : Type}
    (hmac : List Char → List Char → List Nat) (restEnc : α → List Nat)
    (restDec : List Nat → Option (α × List Nat))
    (hcodec : RestCodec restEnc restDec)
    (hrenc : ∀ a, ∀ b ∈ restEnc a, b < 256)
    (hhmac : ∀ d s, ∀ b ∈ hmac d s, b < 256)
    (p : JWTPayload α) (secret : List Char) (expiresIn : Option Int)
    (now now' : Int) :
    verifyJWT hmac restDec (createJWT hmac restEnc p secret expiresIn now)
        secret now' =
      match (mkTokenPayload p expiresIn now).exp with
      | some e =>
          if e ≠ 0 ∧ e < now' then none
          else some (mkTokenPayload p expiresIn now)
      | none => some (mkTokenPayload p expiresIn now) := by
  have hplt : ∀ b ∈ encodePayload restEnc (mkTokenPayload p expiresIn now),
      b < 256 := encodePayload_lt restEnc hrenc _
  set tp := mkTokenPayload p expiresIn now with htp
  set H := B64.base64UrlEncode headerBytes with hH
  set P := B64.base64UrlEncode (encodePayload restEnc tp) with hP
  set sigBytes := hmac (H ++ '.' :: P) secret with hsig
  set S := B64.dropTrailingEq (B64.mapToUrl (B64.btoaBytes sigBytes)) with hS
  have hHdot : ∀ c ∈ H, c ≠ '.' := B64.base64UrlEncode_no_dot _ headerBytes_lt
  have hPdot : ∀ c ∈ P, c ≠ '.' := B64.base64UrlEncode_no_dot _ hplt
  have hSdot : ∀ c ∈ S, c ≠ '.' :=
    B64.base64UrlEncode_no_dot _ (hhmac (H ++ '.' :: P) secret)
  have hsplit : JS.splitOnChar '.' (H ++ '.' :: (P ++ '.' :: S)) =
      [H, P, S] := by
    rw [JS.splitOnChar_append '.' H _ hHdot,
      JS.splitOnChar_append '.' P _ hPdot,
      JS.splitOnChar_no_sep '.' S hSdot]
  have hrestore : B64.padTo4 (B64.mapFromUrl S) = B64.btoaBytes sigBytes := by
    rw [hS]
    exact B64.padTo4_mapFromUrl_dropTrailingEq_mapToUrl sigBytes
      (hhmac (H ++ '.' :: P) secret)
  have hcreate : createJWT hmac restEnc p secret expiresIn now =
      H ++ '.' :: (P ++ '.' :: S) := rfl
  rw [hcreate]
  unfold verifyJWT
  rw [hsplit]
  simp only
  rw [hrestore, B64.atobChars_btoaBytes sigBytes (hhmac (H ++ '.' :: P) secret)]
  simp only [if_pos rfl]
  rw [hP, B64.base64UrlDecode_encode _ hplt]
  simp only [if_true]
  rw [decodePayload_encodePayload restEnc restDec hcodec tp]

end JWT

namespace JWT

/-- Rejection form of the workhorse: a created token whose embedded
`exp` is truthy (nonzero) and in the past verifies to `null`. -/
theorem verifyJWT_createJWT_expired {α : Type}
    (hmac : List Char → List Char → List Nat) (restEnc : α → List Nat)
    (restDec : List Nat → Option (α × List Nat))
    (hcodec : RestCodec restEnc restDec)
    (hrenc : ∀ a, ∀ b ∈ restEnc a, b < 256)
    (hhmac : ∀ d s, ∀ b ∈ hmac d s, b < 256)
    (p : JWTPayload α) (secret : List Char) (expiresIn : Option Int)
    (now now' e : Int) (he : (mkTokenPayload p expiresIn now).exp = some e)
    (he0 : e ≠ 0) (hlt : e < now') :
    verifyJWT hmac restDec (createJWT hmac restEnc p secret expiresIn now)
      secret now' = none := by
  rw [verifyJWT_createJWT hmac restEnc restDec hcodec hrenc hhmac p secret
    expiresIn now now', he]
  simp [he0, hlt]

/-- Acceptance form of the workhorse: a created token whose embedded
`exp` is absent, zero, or not yet passed verifies to the embedded
`tokenPayload`. -/
theorem verifyJWT_createJWT_ok {α : Type}
    (hmac : List Char → List Char → List Nat) (restEnc : α → List Nat)
    (restDec : List Nat → Option (α × List Nat))
    (hcodec : RestCodec restEnc restDec)
    (hrenc : ∀ a, ∀ b ∈ restEnc a, b < 256)
    (hhmac : ∀ d s, ∀ b ∈ hmac d s, b < 256)
    (p : JWTPayload α) (secret : List Char) (expiresIn : Option Int)
    (now now' : Int)
    (hexp : (mkTokenPayload p expiresIn now).exp = none ∨
      (mkTokenPayload p expiresIn now).exp = some 0 ∨
      ∃ e, (mkTokenPayload p expiresIn now).exp = some e ∧ ¬ e < now') :
    verifyJWT hmac restDec (createJWT hmac restEnc p secret expiresIn now)
      secret now' = some (mkTokenPayload p expiresIn now) := by
  rw [verifyJWT_createJWT hmac restEnc restDec hcodec hrenc hhmac p secret
    expiresIn now now']
  rcases hexp with h | h | ⟨e, h, hlt⟩ <;> rw [h]
  · simp
  · simp
    intro h0
    omega

/-- When `createJWT` is called with no options and the caller supplied no
`exp`, the token payload's `exp` member is absent. -/
theorem mkTokenPayload_none (p : JWTPayload α) (now : Int) :
    mkTokenPayload p none now =
      ⟨some (p.iat.getD now), p.exp, p.rest⟩ := by
  cases hpe : p.exp <;> simp [mkTokenPayload, hpe]

end JWT

namespace Fixtures

/-- Trivial instantiation of the abstract HMAC primitive, used only to
instantiate universally quantified theorems at a concrete input. -/
def hmacZero : List Char → List Char → List Nat := fun _ _ => []

/-- Trivial serialisation of a `Unit` payload content. -/
def unitEnc : Unit → List Nat := fun _ => []

/-- Trivial parser for a `Unit` payload content. -/
def unitDec : List Nat → Option (Unit × List Nat) := fun l => some ((), l)

theorem unitCodec : JWT.RestCodec unitEnc unitDec := fun _ _ => rfl

theorem unitEnc_lt : ∀ a : Unit, ∀ b ∈ unitEnc a, b < 256 := by
  intro a b hb
  simp [unitEnc] at hb

theorem hmacZero_lt : ∀ d s, ∀ b ∈ hmacZero d s, b < 256 := by
  intro d s b hb
  simp [hmacZero] at hb

end Fixtures

/-- C1 (counterexample): the round-trip claim fails as stated for a
payload whose caller-supplied `exp` lies in the past.  With `P` having
`exp = 1` and the clock at `5`, `verifyJWT(createJWT(P, S), S)` is `null`
rather than `P` (modulo `iat`/`exp` injection, which would be
`some ⟨iat := 5, exp := 1, rest⟩`). -/
theorem C1_counterexample :
    JWT.verifyJWT Fixtures.hmacZero Fixtures.unitDec
      (JWT.createJWT Fixtures.hmacZero Fixtures.unitEnc
        ⟨none, some 1, ()⟩ ['s'] none 5) ['s'] 5 = none ∧
    (none : Option (JWT.JWTPayload Unit)) ≠ some ⟨some 5, some 1, ()⟩ := by
  decide

/-- C1 (amended): for every secret `S` and payload `P` whose `exp` member
is absent, zero, or not earlier than the verification time, verifying the
token produced by `createJWT(P, S)` with the same secret returns `P`
again with exactly the default `iat` injected (`iat = P.iat ?? now`) and
`exp` unchanged.  Quantified over the platform HMAC primitive and the
serialisation of the non-`iat`/`exp` payload content. -/
theorem C1_roundtrip_modulo_iat_exp {α : Type}
    (hmac : List Char → List Char → List Nat) (restEnc : α → List Nat)
    (restDec : List Nat → Option (α × List Nat))
    (hcodec : JWT.RestCodec restEnc restDec)
    (hrenc : ∀ a, ∀ b ∈ restEnc a, b < 256)
    (hhmac : ∀ d s, ∀ b ∈ hmac d s, b < 256)
    (p : JWT.JWTPayload α) (secret : List Char) (now now' : Int)
    (hexp : p.exp = none ∨ p.exp = some 0 ∨
      ∃ e, p.exp = some e ∧ ¬ e < now') :
    JWT.verifyJWT hmac restDec
      (JWT.createJWT hmac restEnc p secret none now) secret now' =
      some ⟨some (p.iat.getD now), p.exp, p.rest⟩ := by
  have hmk := JWT.mkTokenPayload_none p now
  rw [← hmk]
  exact JWT.verifyJWT_createJWT_ok hmac restEnc restDec hcodec hrenc hhmac
    p secret none now now' (by rw [hmk]; exact hexp)

/-- C1 (witness): the amended round-trip theorem applied at a concrete
input. -/
theorem C1_witness :
    JWT.verifyJWT Fixtures.hmacZero Fixtures.unitDec
      (JWT.createJWT Fixtures.hmacZero Fixtures.unitEnc
        (⟨some 2, none, ()⟩ : JWT.JWTPayload Unit) ['k'] none 5) ['k'] 9 =
      some ⟨some 2, none, ()⟩ :=
  C1_roundtrip_modulo_iat_exp Fixtures.hmacZero Fixtures.unitEnc
    Fixtures.unitDec Fixtures.unitCodec Fixtures.unitEnc_lt
    Fixtures.hmacZero_lt ⟨some 2, none, ()⟩ ['k'] 5 9 (Or.inl rfl)

/-- C2 (counterexample): the clause "verifyJWT returns null whenever the
payload's exp field exists and is earlier than the current time" fails at
`exp = 0`: `0` is falsy in JavaScript, so the guard
`payload.exp && payload.exp < now` skips the expiry check and a token
whose `exp` member is present and equal to `0` is accepted at time `5`. -/
theorem C2_counterexample :
    JWT.verifyJWT Fixtures.hmacZero Fixtures.unitDec
      (JWT.createJWT Fixtures.hmacZero Fixtures.unitEnc
        ⟨none, some 0, ()⟩ ['s'] none 5) ['s'] 5 =
      some ⟨some 5, some 0, ()⟩ ∧
    some (⟨some 5, some 0, ()⟩ : JWT.JWTPayload Unit) ≠ none := by
  decide

/-- C2 (amended): (a) for every secret, a token created by `createJWT`
with `expiresIn = -1` (and no caller-supplied `exp`) at a clock value
`now ≥ 2` carries `exp = now - 1` in the past, and `verifyJWT` rejects it
(returns null) at every time `now' ≥ now`; (b) in general `verifyJWT`
returns null for a created token whenever the embedded `exp` exists, is
nonzero, and is earlier than the verification time. -/
theorem C2_expired_token_rejected :
    (∀ {α : Type} (hmac : List Char → List Char → List Nat)
        (restEnc : α → List Nat)
        (restDec : List Nat → Option (α × List Nat)),
      JWT.RestCodec restEnc restDec →
      (∀ a, ∀ b ∈ restEnc a, b < 256) →
      (∀ d s, ∀ b ∈ hmac d s, b < 256) →
      ∀ (p : JWT.JWTPayload α) (secret : List Char) (now now' : Int),
        p.exp = none → 2 ≤ now → now ≤ now' →
        JWT.verifyJWT hmac restDec
          (JWT.createJWT hmac restEnc p secret (some (-1)) now) secret now' =
          none) ∧
    (∀ {α : Type} (hmac : List Char → List Char → List Nat)
        (restEnc : α → List Nat)
        (restDec : List Nat → Option (α × List Nat)),
      JWT.RestCodec restEnc restDec →
      (∀ a, ∀ b ∈ restEnc a, b < 256) →
      (∀ d s, ∀ b ∈ hmac d s, b < 256) →
      ∀ (p : JWT.JWTPayload α) (secret : List Char) (expiresIn : Option Int)
        (now now' e : Int),
        (JWT.mkTokenPayload p expiresIn now).exp = some e → e ≠ 0 →
        e < now' →
        JWT.verifyJWT hmac restDec
          (JWT.createJWT hmac restEnc p secret expiresIn now) secret now' =
          none) := by
  constructor
  · intro α hmac restEnc restDec hcodec hrenc hhmac p secret now now'
      hpe hnow hle
    refine JWT.verifyJWT_createJWT_expired hmac restEnc restDec hcodec hrenc
      hhmac p secret (some (-1)) now now' (now + (-1)) ?_ (by omega) (by omega)
    simp [JWT.mkTokenPayload, hpe]
  · intro α hmac restEnc restDec hcodec hrenc hhmac p secret expiresIn
      now now' e he he0 hlt
    exact JWT.verifyJWT_createJWT_expired hmac restEnc restDec hcodec hrenc
      hhmac p secret expiresIn now now' e he he0 hlt

/-- C2 (witness): both parts of the amended expiry theorem applied at a
concrete input. -/
theorem C2_witness :
    JWT.verifyJWT Fixtures.hmacZero Fixtures.unitDec
      (JWT.createJWT Fixtures.hmacZero Fixtures.unitEnc
        (⟨none, none, ()⟩ : JWT.JWTPayload Unit) ['s'] (some (-1)) 5)
      ['s'] 5 = none ∧
    JWT.verifyJWT Fixtures.hmacZero Fixtures.unitDec
      (JWT.createJWT Fixtures.hmacZero Fixtures.unitEnc
        (⟨none, some 3, ()⟩ : JWT.JWTPayload Unit) ['s'] none 9)
      ['s'] 9 = none :=
  ⟨C2_expired_token_rejected.1 Fixtures.hmacZero Fixtures.unitEnc
    Fixtures.unitDec Fixtures.unitCodec Fixtures.unitEnc_lt
    Fixtures.hmacZero_lt ⟨none, none, ()⟩ ['s'] 5 5 rfl (by decide)
    (by decide),
   C2_expired_token_rejected.2 Fixtures.hmacZero Fixtures.unitEnc
    Fixtures.unitDec Fixtures.unitCodec Fixtures.unitEnc_lt
    Fixtures.hmacZero_lt ⟨none, some 3, ()⟩ ['s'] none 9 9 3 rfl
    (by decide) (by decide)⟩

/-- C10: a token created with no `expiresIn` option and no caller `exp`
carries no `exp` claim, and `verifyJWT` accepts it at every later time;
likewise a token whose `exp` equals `0` is accepted at every time — the
expiry check is skipped entirely. -/
theorem C10_tokens_without_truthy_exp_never_expire :
    (∀ {α : Type} (hmac : List Char → List Char → List Nat)
        (restEnc : α → List Nat)
        (restDec : List Nat → Option (α × List Nat)),
      JWT.RestCodec restEnc restDec →
      (∀ a, ∀ b ∈ restEnc a, b < 256) →
      (∀ d s, ∀ b ∈ hmac d s, b < 256) →
      ∀ (p : JWT.JWTPayload α) (secret : List Char) (now now' : Int),
        p.exp = none →
        (JWT.mkTokenPayload p none now).exp = none ∧
        JWT.verifyJWT hmac restDec
          (JWT.createJWT hmac restEnc p secret none now) secret now' =
          some (JWT.mkTokenPayload p none now)) ∧
    (∀ {α : Type} (hmac : List Char → List Char → List Nat)
        (restEnc : α → List Nat)
        (restDec : List Nat → Option (α × List Nat)),
      JWT.RestCodec restEnc restDec →
      (∀ a, ∀ b ∈ restEnc a, b < 256) →
      (∀ d s, ∀ b ∈ hmac d s, b < 256) →
      ∀ (p : JWT.JWTPayload α) (secret : List Char) (expiresIn : Option Int)
        (now now' : Int),
        p.exp = some 0 →
        JWT.verifyJWT hmac restDec
          (JWT.createJWT hmac restEnc p secret expiresIn now) secret now' =
          some (JWT.mkTokenPayload p expiresIn now)) := by
  constructor
  · intro α hmac restEnc restDec hcodec hrenc hhmac p secret now now' hpe
    have hexp : (JWT.mkTokenPayload p none now).exp = none := by
      simp [JWT.mkTokenPayload, hpe]
    exact ⟨hexp, JWT.verifyJWT_createJWT_ok hmac restEnc restDec hcodec
      hrenc hhmac p secret none now now' (Or.inl hexp)⟩
  · intro α hmac restEnc restDec hcodec hrenc hhmac p secret expiresIn
      now now' hpe
    have hexp : (JWT.mkTokenPayload p expiresIn now).exp = some 0 := by
      simp [JWT.mkTokenPayload, hpe]
    exact JWT.verifyJWT_createJWT_ok hmac restEnc restDec hcodec hrenc
      hhmac p secret expiresIn now now' (Or.inr (Or.inl hexp))

/-- C10 (witness): both parts applied at a concrete input. -/
theorem C10_witness :
    ((JWT.mkTokenPayload (⟨none, none, ()⟩ : JWT.JWTPayload Unit)
        none 5).exp = none ∧
      JWT.verifyJWT Fixtures.hmacZero Fixtures.unitDec
        (JWT.createJWT Fixtures.hmacZero Fixtures.unitEnc
          (⟨none, none, ()⟩ : JWT.JWTPayload Unit) ['s'] none 5)
        ['s'] 1000000 = some ⟨some 5, none, ()⟩) ∧
    JWT.verifyJWT Fixtures.hmacZero Fixtures.unitDec
      (JWT.createJWT Fixtures.hmacZero Fixtures.unitEnc
        (⟨none, some 0, ()⟩ : JWT.JWTPayload Unit) ['s'] (some 7) 5)
      ['s'] 1000000 = some ⟨some 5, some 0, ()⟩ :=
  ⟨C10_tokens_without_truthy_exp_never_expire.1 Fixtures.hmacZero
    Fixtures.unitEnc Fixtures.unitDec Fixtures.unitCodec
    Fixtures.unitEnc_lt Fixtures.hmacZero_lt ⟨none, none, ()⟩ ['s'] 5
    1000000 rfl,
   C10_tokens_without_truthy_exp_never_expire.2 Fixtures.hmacZero
    Fixtures.unitEnc Fixtures.unitDec Fixtures.unitCodec
    Fixtures.unitEnc_lt Fixtures.hmacZero_lt ⟨none, some 0, ()⟩ ['s']
    (some 7) 5 1000000 rfl⟩

/-- C6 (counterexample): with a caller-supplied `iat = 5`, `expiresIn =
10` and the clock at `1000`, the token payload carries
`exp = now + expiresIn = 1010`, not `iat + expiresIn = 15`. -/
theorem C6_counterexample :
    (JWT.mkTokenPayload (⟨some 5, none, ()⟩ : JWT.JWTPayload Unit)
        (some 10) 1000).iat = some 5 ∧
    (JWT.mkTokenPayload (⟨some 5, none, ()⟩ : JWT.JWTPayload Unit)
        (some 10) 1000).exp = some 1010 ∧
    some (1010 : Int) ≠ some ((5 : Int) + 10) := by
  decide

/-- C6 (amended): the token payload built by `createJWT` has
`iat = payload.iat ?? now`; a caller-supplied `exp` is kept as is; when
no `exp` is supplied and `expiresIn` is given and nonzero,
`exp = now + expiresIn` — which coincides with `iat + expiresIn` exactly
when the caller supplied no `iat`; when `expiresIn` is absent or `0`
(falsy) and no `exp` is supplied, no `exp` claim is emitted. -/
theorem C6_timestamps_amended {α : Type} (p : JWT.JWTPayload α)
    (expiresIn : Option Int) (now : Int) :
    (JWT.mkTokenPayload p expiresIn now).iat = some (p.iat.getD now) ∧
    (JWT.mkTokenPayload p expiresIn now).rest = p.rest ∧
    (∀ e, p.exp = some e →
      (JWT.mkTokenPayload p expiresIn now).exp = some e) ∧
    (∀ n, p.exp = none → expiresIn = some n → n ≠ 0 →
      (JWT.mkTokenPayload p expiresIn now).exp = some (now + n)) ∧
    (p.exp = none → (expiresIn = none ∨ expiresIn = some 0) →
      (JWT.mkTokenPayload p expiresIn now).exp = none) ∧
    (∀ n, p.iat = none → p.exp = none → expiresIn = some n → n ≠ 0 →
      (JWT.mkTokenPayload p expiresIn now).exp =
        some ((JWT.mkTokenPayload p expiresIn now).iat.getD 0 + n)) := by
  refine ⟨rfl, rfl, ?_, ?_, ?_, ?_⟩
  · intro e he
    simp [JWT.mkTokenPayload, he]
  · intro n hpe hei hn
    simp [JWT.mkTokenPayload, hpe, hei, hn]
  · intro hpe hei
    rcases hei with h | h <;> simp [JWT.mkTokenPayload, hpe, h]
  · intro n hpi hpe hei hn
    simp [JWT.mkTokenPayload, hpi, hpe, hei, hn]

/-- C6 (witness): the amended timestamp theorem applied at a concrete
input. -/
theorem C6_witness :
    (JWT.mkTokenPayload (⟨none, none, ()⟩ : JWT.JWTPayload Unit)
        (some 7) 100).iat = some 100 ∧
    (JWT.mkTokenPayload (⟨none, none, ()⟩ : JWT.JWTPayload Unit)
        (some 7) 100).exp = some 107 :=
  ⟨(C6_timestamps_amended ⟨none, none, ()⟩ (some 7) 100).1,
   (C6_timestamps_amended ⟨none, none, ()⟩ (some 7) 100).2.2.2.1 7 rfl rfl
     (by decide)⟩

namespace SessionM

/-- `Session` from `src/lib/types.ts`, as used by `session.ts`: the user
(abstract), `expires` (a `Date`, modelled as epoch milliseconds), the
optional OAuth tokens, and the optional extra `iat` member that
`shouldUpdateSession` reads through its `(session as { iat?: number })`
cast — no constructor of the code ever sets it. -/
structure Session (υ : Type) where
  user : υ
  expires : Int
  accessToken : Option (List Char)
  refreshToken : Option (List Char)
  iat : Option Int
deriving DecidableEq, Repr

/-- `createSession` from `src/lib/utils/session.ts`:
`expires = now + maxAge * 1000`, and no other members are set. -/
def createSession (user : υ) (maxAge : Int) (now : Int) : Session υ where
  user := user
  expires := now + maxAge * 1000
  accessToken := none
  refreshToken := none
  iat := none

/-- The non-`iat`/`exp` content of a session token payload
(`{sub, user, accessToken, refreshToken}` as built by `encodeSession`),
as read back by `decodeSession`.  `sub` is derived from the user and not
read back, so it is not modelled separately. -/
structure SessionRest (υ : Type) where
  user : Option υ
  accessToken : Option (List Char)
  refreshToken : Option (List Char)
deriving DecidableEq, Repr

/-- `decodeSession` from `src/lib/utils/session.ts`: verify the token,
require `payload.user` to be present (`!payload.user` — for an object
value only `null`/`undefined` are falsy), rebuild
`expires = (payload.exp ?? 0) * 1000`.  The `Session` literal it returns
carries no `iat` member. -/
def decodeSession (hmac : List Char → List Char → List Nat)
    (restDec : List Nat → Option (SessionRest υ × List Nat))
    (token secret : List Char) (now : Int) : Option (Session υ) :=
  match JWT.verifyJWT hmac restDec token secret now with
  | none => none
  | some payload =>
      match payload.rest.user with
      | none => none
      | some u =>
          some { user := u, expires := payload.exp.getD 0 * 1000,
                 accessToken := payload.rest.accessToken,
                 refreshToken := payload.rest.refreshToken, iat := none }

/-- `shouldUpdateSession` from `src/lib/utils/session.ts`.  When the
session carries no `iat` member, the JavaScript `iat! * 1000` is
`undefined * 1000 = NaN`, so `maxAge` is `NaN` and the comparison
`timeLeft < maxAge - updateAge * 1000` is false (every comparison
involving `NaN` is false); the `none` branch models that the function
then returns `false`. -/
def shouldUpdateSession (session : Session υ) (updateAge : Int)
    (now : Int) : Bool :=
  match session.iat with
  | none => false
  | some i =>
      decide (session.expires - now <
        session.expires - i * 1000 - updateAge * 1000)

end SessionM

/-- C9: a session value that carries no `iat` member makes
`shouldUpdateSession` return `false` for every `updateAge` (the `NaN`
comparison), and neither `createSession` nor `decodeSession` ever sets
`iat`, so the sliding-expiration refresh is never triggered on any
current code path. -/
theorem C9_shouldUpdateSession_never_fires :
    (∀ {υ : Type} (s : SessionM.Session υ), s.iat = none →
      ∀ (updateAge now : Int),
        SessionM.shouldUpdateSession s updateAge now = false) ∧
    (∀ {υ : Type} (user : υ) (maxAge now : Int),
      (SessionM.createSession user maxAge now).iat = none) ∧
    (∀ {υ : Type} (hmac : List Char → List Char → List Nat)
        (restDec : List Nat → Option (SessionM.SessionRest υ × List Nat))
        (token secret : List Char) (now : Int) (s : SessionM.Session υ),
      SessionM.decodeSession hmac restDec token secret now = some s →
      s.iat = none) := by
  refine ⟨?_, fun _ _ _ => rfl, ?_⟩
  · intro υ s hiat updateAge now
    unfold SessionM.shouldUpdateSession
    rw [hiat]
  · intro υ hmac restDec token secret now s hdec
    unfold SessionM.decodeSession at hdec
    split at hdec
    · exact absurd hdec (by simp)
    · split at hdec
      · exact absurd hdec (by simp)
      · simp only [Option.some.injEq] at hdec
        rw [← hdec]

namespace Fixtures

/-- Concrete session-payload content used to instantiate the session
theorems. -/
def sessRestValue : SessionM.SessionRest Nat := ⟨some 0, none, none⟩

def sessEnc : SessionM.SessionRest Nat → List Nat := fun _ => []

def sessDec : List Nat → Option (SessionM.SessionRest Nat × List Nat) :=
  fun l => some (sessRestValue, l)

end Fixtures

/-- C9 (witness): all three parts applied at concrete inputs (a session
with no `iat`, a concrete `createSession` call, and a session token that
actually decodes). -/
theorem C9_witness :
    SessionM.shouldUpdateSession
      (⟨0, 1000, none, none, none⟩ : SessionM.Session Nat) 3 500 = false ∧
    (SessionM.createSession (0 : Nat) 60 100).iat = none ∧
    (⟨0, 0, none, none, none⟩ : SessionM.Session Nat).iat = none :=
  ⟨C9_shouldUpdateSession_never_fires.1 ⟨0, 1000, none, none, none⟩ rfl 3 500,
   C9_shouldUpdateSession_never_fires.2.1 0 60 100,
   C9_shouldUpdateSession_never_fires.2.2 Fixtures.hmacZero Fixtures.sessDec
     (JWT.createJWT Fixtures.hmacZero Fixtures.sessEnc
       ⟨none, none, Fixtures.sessRestValue⟩ ['s'] none 5) ['s'] 5
     ⟨0, 0, none, none, none⟩ (by decide)⟩

namespace PW

/-- Lowercase hex digits, as produced by `Number.prototype.toString(16)`. -/
def hexChars : List Char :=
  ['0', '1', '2', '3', '4', '5', '6', '7'] ++
    ['8', '9', 'a', 'b', 'c', 'd', 'e', 'f']

def hexDigitChar (d : Nat) : Char := hexChars.getD d '0'

/-- Value of one hex digit as accepted by `parseInt(-, 16)` (upper or
lower case); `none` for a non-digit. -/
def hexVal (c : Char) : Option Nat :=
  if '0' ≤ c ∧ c ≤ '9' then some (c.toNat - 48)
  else if 'a' ≤ c ∧ c ≤ 'f' then some (c.toNat - 87)
  else if 'A' ≤ c ∧ c ≤ 'F' then some (c.toNat - 55)
  else none

/-- `toHex` from `password.ts`: each byte as two lowercase hex digits
(`b.toString(16).padStart(2, '0')` for `b < 256`). -/
def toHex : List Nat → List Char
  | [] => []
  | b :: rest => hexDigitChar (b / 16) :: hexDigitChar (b % 16) :: toHex rest

/-- `fromHex` from `password.ts`: `parseInt(hex.slice(2i, 2i+2), 16)`
stored into a `Uint8Array`.  `parseInt` parses the maximal valid prefix
of the two-character slice and yields `NaN` (stored as `0`) when the
first character is invalid; a trailing odd character is dropped since
the output length is `hex.length / 2` (floored). -/
def fromHex : List Char → List Nat
  | c1 :: c2 :: rest =>
      (match hexVal c1, hexVal c2 with
       | some h, some l => h * 16 + l
       | some h, none => h
       | none, _ => 0) :: fromHex rest
  | _ => []

theorem hexVal_hexDigitChar : ∀ d < 16, hexVal (hexDigitChar d) = some d := by
  decide

theorem hexDigitChar_ne_colon : ∀ d < 16, hexDigitChar d ≠ ':' := by decide

/-- `fromHex` inverts `toHex` on byte strings. -/
theorem fromHex_toHex (bs : List Nat) (h : ∀ b ∈ bs, b < 256) :
    fromHex (toHex bs) = bs := by
  induction bs with
  | nil => rfl
  | cons b rest ih =>
      have hb : b < 256 := h b (by simp)
      have hrest : ∀ x ∈ rest, x < 256 := fun x hx => h x (by simp [hx])
      show fromHex (hexDigitChar (b / 16) :: hexDigitChar (b % 16) ::
        toHex rest) = b :: rest
      rw [show ∀ c1 c2 l, fromHex (c1 :: c2 :: l) =
        (match hexVal c1, hexVal c2 with
         | some h, some l => h * 16 + l
         | some h, none => h
         | none, _ => 0) :: fromHex l from fun _ _ _ => rfl]
      rw [hexVal_hexDigitChar (b / 16) (by omega),
        hexVal_hexDigitChar (b % 16) (by omega), ih hrest]
      congr 1
      show b / 16 * 16 + b % 16 = b
      omega

theorem hexDigitChar_ne_colon_all (d : Nat) : hexDigitChar d ≠ ':' := by
  by_cases h : d < 16
  · exact hexDigitChar_ne_colon d h
  · unfold hexDigitChar
    rw [List.getD_eq_default]
    · decide
    · show 16 ≤ d
      omega

theorem toHex_no_colon (bs : List Nat) : ∀ c ∈ toHex bs, c ≠ ':' := by
  induction bs with
  | nil => intro c hc; simp [toHex] at hc
  | cons b rest ih =>
      intro c hc
      simp only [toHex, List.mem_cons] at hc
      rcases hc with rfl | rfl | hc
      · exact hexDigitChar_ne_colon_all _
      · exact hexDigitChar_ne_colon_all _
      · exact ih c hc

end PW

namespace PW

/-- Decimal rendering of a natural number, as produced by template
interpolation of a JavaScript number (`String(n)` for integral `n`). -/
def toDecimal (n : Nat) : List Char :=
  if h : n < 10 then [hexDigitChar n]
  else toDecimal (n / 10) ++ [hexDigitChar (n % 10)]
termination_by n
decreasing_by omega

/-- Value of one decimal digit; `none` for a non-digit. -/
def digitVal (c : Char) : Option Nat :=
  if '0' ≤ c ∧ c ≤ '9' then some (c.toNat - 48) else none

/-- Maximal digit-prefix accumulator of `parseInt(-, 10)`. -/
def parseDigits : List Char → Nat → Nat × List Char
  | c :: rest, acc =>
      match digitVal c with
      | some d => parseDigits rest (acc * 10 + d)
      | none => (acc, c :: rest)
  | [], acc => (acc, [])

/-- Models `parseInt(s, 10)` on inputs without leading whitespace or
sign: parses the maximal decimal-digit prefix, `none` models `NaN`
(no leading digit or empty string). -/
def parseIntJS (s : List Char) : Option Nat :=
  match s with
  | [] => none
  | c :: _ =>
      match digitVal c with
      | some _ => some (parseDigits s 0).1
      | none => none

theorem digitVal_hexDigitChar : ∀ d < 10, digitVal (hexDigitChar d) = some d := by
  decide

theorem toDecimal_chars (n : Nat) : ∀ c ∈ toDecimal n, ∃ d, d < 10 ∧
    c = hexDigitChar d := by
  induction n using toDecimal.induct with
  | case1 n h =>
      intro c hc
      rw [toDecimal, dif_pos h] at hc
      simp only [List.mem_singleton] at hc
      exact ⟨n, h, hc⟩
  | case2 n h ih =>
      intro c hc
      rw [toDecimal, dif_neg h] at hc
      rcases List.mem_append.mp hc with h1 | h1
      · exact ih c h1
      · simp only [List.mem_singleton] at h1
        exact ⟨n % 10, by omega, h1⟩

theorem toDecimal_no_colon (n : Nat) : ∀ c ∈ toDecimal n, c ≠ ':' := by
  intro c hc
  obtain ⟨d, _, rfl⟩ := toDecimal_chars n c hc
  exact hexDigitChar_ne_colon_all d

theorem parseDigits_toDecimal (n : Nat) :
    ∀ (l : List Char) (acc : Nat), parseDigits (toDecimal n ++ l) acc =
      parseDigits l (acc * 10 ^ (toDecimal n).length + n) := by
  induction n using toDecimal.induct with
  | case1 n h =>
      intro l acc
      rw [toDecimal, dif_pos h]
      show parseDigits (hexDigitChar n :: l) acc = _
      rw [show ∀ c r a, parseDigits (c :: r) a =
        (match digitVal c with
         | some d => parseDigits r (a * 10 + d)
         | none => (a, c :: r)) from fun _ _ _ => rfl]
      rw [digitVal_hexDigitChar n h]
      simp
  | case2 n h ih =>
      intro l acc
      rw [toDecimal, dif_neg h, List.append_assoc, ih, List.cons_append,
        List.nil_append]
      rw [show ∀ c r a, parseDigits (c :: r) a =
        (match digitVal c with
         | some d => parseDigits r (a * 10 + d)
         | none => (a, c :: r)) from fun _ _ _ => rfl]
      rw [digitVal_hexDigitChar (n % 10) (by omega)]
      show parseDigits l
          ((acc * 10 ^ (toDecimal (n / 10)).length + n / 10) * 10 + n % 10) =
        parseDigits l
          (acc * 10 ^ (toDecimal (n / 10) ++ [hexDigitChar (n % 10)]).length
            + n)
      congr 1
      rw [List.length_append, List.length_singleton, pow_succ]
      generalize (10 : Nat) ^ (toDecimal (n / 10)).length = A
      have hsplit : n / 10 * 10 + n % 10 = n := by omega
      calc (acc * A + n / 10) * 10 + n % 10
          = acc * (A * 10) + (n / 10 * 10 + n % 10) := by ring
        _ = acc * (A * 10) + n := by rw [hsplit]

theorem toDecimal_ne_nil (n : Nat) : toDecimal n ≠ [] := by
  by_cases h : n < 10
  · rw [toDecimal, dif_pos h]
    simp
  · rw [toDecimal, dif_neg h]
    simp

theorem parseIntJS_cons_digit (c : Char) (rest : List Char) (d : Nat)
    (h : digitVal c = some d) :
    parseIntJS (c :: rest) = some (parseDigits (c :: rest) 0).1 := by
  show (match digitVal c with
        | some _ => some (parseDigits (c :: rest) 0).1
        | none => none) = some (parseDigits (c :: rest) 0).1
  rw [h]

theorem parseIntJS_toDecimal (n : Nat) : parseIntJS (toDecimal n) = some n := by
  have hpd : parseDigits (toDecimal n ++ []) 0 =
      parseDigits [] (0 * 10 ^ (toDecimal n).length + n) :=
    parseDigits_toDecimal n [] 0
  rw [List.append_nil] at hpd
  simp only [parseDigits, Nat.zero_mul, Nat.zero_add] at hpd
  rcases hd : toDecimal n with _ | ⟨c, rest⟩
  · exact absurd hd (toDecimal_ne_nil n)
  · obtain ⟨d, hd10, rfl⟩ := toDecimal_chars n c (by rw [hd]; simp)
    rw [parseIntJS_cons_digit _ _ d (digitVal_hexDigitChar d hd10), ← hd, hpd]

end PW

namespace PW

/-- Algorithm tag of `HashOptions` (`'pbkdf2' | 'argon2'`). -/
inductive Alg
  | pbkdf2
  | argon2
deriving DecidableEq, Repr

/-- `HashOptions` from `password.ts` (every member optional). -/
structure HashOptions where
  algorithm : Option Alg := none
  iterations : Option Nat := none
  saltLength : Option Nat := none
  hashLength : Option Nat := none

/-- The result of `{ ...DEFAULT_OPTIONS, ...options }` with
`DEFAULT_OPTIONS = { algorithm: 'pbkdf2', iterations: 100000,
saltLength: 16, hashLength: 32 }`. -/
structure ResolvedOptions where
  algorithm : Alg
  iterations : Nat
  saltLength : Nat
  hashLength : Nat

def resolveOptions (o : HashOptions) : ResolvedOptions where
  algorithm := o.algorithm.getD .pbkdf2
  iterations := o.iterations.getD 100000
  saltLength := o.saltLength.getD 16
  hashLength := o.hashLength.getD 32

/-- The optionally installed `@node-rs/argon2` module: `hash(password)`
and `verify(hash, password)`. -/
structure Argon2Mod where
  hash : List Char → List Char
  verify : List Char → List Char → Bool

/-- Type of the Web Crypto PBKDF2 primitive (`hashPBKDF2`):
password, salt, iterations, hash length (bytes) to derived bytes. -/
def Pbkdf2 : Type := List Char → List Nat → Nat → Nat → List Nat

/-- `hashPassword` from `password.ts`.  `pbkdf2` is the platform key
derivation primitive; `salt` is the outcome of the
`generateSalt(opts.saltLength)` random oracle, passed in as data;
`argon2` is the optional module (`none` when not installed).
`Except.error` models a thrown `Error` with the given message. -/
def hashPassword (argon2 : Option Argon2Mod) (pbkdf2 : Pbkdf2)
    (password : List Char) (options : HashOptions) (salt : List Nat) :
    Except (List Char) (List Char) :=
  let opts := resolveOptions options
  match opts.algorithm with
  | .argon2 =>
      match argon2 with
      | none =>
          .error (("Argon2 requested but @node-rs/argon2 is not installed. "
            ++ "Install it with: npm install @node-rs/argon2").toList)
      | some m => .ok ("argon2:".toList ++ m.hash password)
  | .pbkdf2 =>
      let hash := pbkdf2 password salt opts.iterations opts.hashLength
      .ok ("pbkdf2".toList ++ ':' :: (toDecimal opts.iterations ++ ':' ::
        (toDecimal opts.saltLength ++ ':' :: (toDecimal opts.hashLength ++
          ':' :: (toHex salt ++ ':' :: toHex hash)))))

/-- The constant-time comparison loop of `verifyPassword`
(`result |= computedHash[i] ^ storedHash[i]`, then `result === 0`),
applied after the length check. -/
def ctCompare (a b : List Nat) : Bool :=
  ((a.zip b).foldl (fun r q => r ||| (q.1 ^^^ q.2)) 0) == 0

/-- Body of `verifyPassword`'s `try` block.  `Except.error ()` models a
thrown exception: the argon2-missing `throw`, `fromHex(undefined)` when
a field is missing from the hash string (`undefined.length` raises a
`TypeError`), and the Web Crypto call rejecting `NaN` parameters when
`parseInt` failed. -/
def verifyPasswordTry (argon2 : Option Argon2Mod) (pbkdf2 : Pbkdf2)
    (password : List Char) (parts : List (List Char)) : Except Unit Bool :=
  let algorithm := parts.headD []
  if algorithm = "argon2".toList then
    match argon2 with
    | none => .error ()
    | some m => .ok (m.verify (List.intercalate [':'] parts.tail) password)
  else if algorithm = "pbkdf2".toList then
    match parts with
    | _ :: iterStr :: _saltLenStr :: hashLenStr :: saltHex :: hashHex :: _ =>
        match parseIntJS iterStr, parseIntJS hashLenStr with
        | some iterations, some hashLength =>
            let salt := fromHex saltHex
            let storedHash := fromHex hashHex
            let computedHash := pbkdf2 password salt iterations hashLength
            if computedHash.length ≠ storedHash.length then .ok false
            else .ok (ctCompare computedHash storedHash)
        | _, _ => .error ()
    | _ => .error ()
  else .ok false

/-- `verifyPassword` from `password.ts`: the falsy-hash guard, the split
on `':'`, and the `try/catch` that turns every thrown exception into
`false`. -/
def verifyPassword (argon2 : Option Argon2Mod) (pbkdf2 : Pbkdf2)
    (password hash : List Char) : Bool :=
  if hash = [] then false
  else
    match verifyPasswordTry argon2 pbkdf2 password
        (JS.splitOnChar ':' hash) with
    | .ok b => b
    | .error _ => false

theorem lor_eq_zero_iff (a b : Nat) : a ||| b = 0 ↔ a = 0 ∧ b = 0 := by
  constructor
  · intro h
    constructor <;> refine Nat.eq_of_testBit_eq fun i => ?_
    · have h2 := congrArg (fun m => Nat.testBit m i) h
      simp only [Nat.testBit_lor, Nat.zero_testBit, Bool.or_eq_false_iff]
        at h2
      simp [h2.1]
    · have h2 := congrArg (fun m => Nat.testBit m i) h
      simp only [Nat.testBit_lor, Nat.zero_testBit, Bool.or_eq_false_iff]
        at h2
      simp [h2.2]
  · rintro ⟨rfl, rfl⟩
    simp

theorem ctfold_eq_zero_iff (l : List (Nat × Nat)) : ∀ r : Nat,
    (l.foldl (fun r q => r ||| (q.1 ^^^ q.2)) r = 0 ↔
      r = 0 ∧ ∀ q ∈ l, q.1 = q.2) := by
  induction l with
  | nil => intro r; simp
  | cons q l ih =>
      intro r
      simp only [List.foldl_cons, ih, lor_eq_zero_iff, Nat.xor_eq_zero,
        List.mem_cons]
      constructor
      · rintro ⟨⟨hr, hq⟩, hl⟩
        refine ⟨hr, ?_⟩
        intro x hx
        rcases hx with rfl | hx
        · exact hq
        · exact hl x hx
      · rintro ⟨hr, hall⟩
        exact ⟨⟨hr, hall q (Or.inl rfl)⟩, fun x hx => hall x (Or.inr hx)⟩

theorem zip_forall_eq (a : List Nat) : ∀ b : List Nat, a.length = b.length →
    ((∀ q ∈ a.zip b, q.1 = q.2) ↔ a = b) := by
  induction a with
  | nil =>
      intro b hb
      cases b
      · simp
      · simp at hb
  | cons x a ih =>
      intro b hb
      cases b with
      | nil => simp at hb
      | cons y b =>
          simp only [List.zip_cons_cons, List.mem_cons, List.cons.injEq]
          constructor
          · intro h
            refine ⟨h (x, y) (Or.inl rfl), ?_⟩
            exact (ih b (by simpa using hb)).mp fun q hq => h q (Or.inr hq)
          · rintro ⟨rfl, rfl⟩
            intro q hq
            rcases hq with rfl | hq
            · rfl
            · exact ((ih a rfl).mpr rfl) q hq

/-- The constant-time loop decides equality of equal-length byte
strings. -/
theorem ctCompare_iff (a b : List Nat) (hlen : a.length = b.length) :
    ctCompare a b = true ↔ a = b := by
  unfold ctCompare
  rw [beq_iff_eq, ctfold_eq_zero_iff]
  constructor
  · rintro ⟨-, h⟩
    exact (zip_forall_eq a b hlen).mp h
  · intro h
    exact ⟨rfl, (zip_forall_eq a b hlen).mpr h⟩

end PW

namespace PW

theorem ctCompare_self (a : List Nat) : ctCompare a a = true :=
  (ctCompare_iff a a rfl).mpr rfl

/-- Splitting a `hashPassword` format string recovers its six fields. -/
theorem split_hashString (iter saltLen hashLen : Nat) (salt hash : List Nat) :
    JS.splitOnChar ':' ("pbkdf2".toList ++ ':' :: (toDecimal iter ++ ':' ::
      (toDecimal saltLen ++ ':' :: (toDecimal hashLen ++ ':' ::
        (toHex salt ++ ':' :: toHex hash))))) =
    ["pbkdf2".toList, toDecimal iter, toDecimal saltLen, toDecimal hashLen,
     toHex salt, toHex hash] := by
  rw [JS.splitOnChar_append ':' _ _ (by decide),
    JS.splitOnChar_append ':' _ _ (toDecimal_no_colon iter),
    JS.splitOnChar_append ':' _ _ (toDecimal_no_colon saltLen),
    JS.splitOnChar_append ':' _ _ (toDecimal_no_colon hashLen),
    JS.splitOnChar_append ':' _ _ (toHex_no_colon salt),
    JS.splitOnChar_no_sep ':' _ (toHex_no_colon hash)]

/-- Verification of a freshly produced pbkdf2 hash string reduces to the
constant-time comparison of the stored digest with a recomputed one. -/
theorem verifyPassword_format (argon2 : Option Argon2Mod) (pbkdf2 : Pbkdf2)
    (attempt : List Char) (iter saltLen hashLen : Nat) (salt : List Nat)
    (hs : ∀ b ∈ salt, b < 256) (digest : List Nat)
    (hd : ∀ b ∈ digest, b < 256) :
    verifyPassword argon2 pbkdf2 attempt
      ("pbkdf2".toList ++ ':' :: (toDecimal iter ++ ':' ::
        (toDecimal saltLen ++ ':' :: (toDecimal hashLen ++ ':' ::
          (toHex salt ++ ':' :: toHex digest))))) =
      ((pbkdf2 attempt salt iter hashLen).length == digest.length &&
        ctCompare (pbkdf2 attempt salt iter hashLen) digest) := by
  unfold verifyPassword
  rw [if_neg (by simp), split_hashString]
  unfold verifyPasswordTry
  have hne : ¬ ("pbkdf2".toList = "argon2".toList) := by decide
  simp only [List.headD_cons, if_neg hne, if_pos rfl, parseIntJS_toDecimal,
    fromHex_toHex salt hs, fromHex_toHex digest hd]
  by_cases hlen : (pbkdf2 attempt salt iter hashLen).length = digest.length
  · simp [hlen]
  · simp [hlen]

end PW

namespace PW

/-- A pbkdf2-tagged hash string with fewer than six fields makes the
`try` body throw (`fromHex(undefined)`), which the catch turns into
`false`. -/
theorem verifyPasswordTry_short (argon2 : Option Argon2Mod)
    (pbkdf2 : Pbkdf2) (password : List Char) (parts : List (List Char))
    (hhead : parts.headD [] = "pbkdf2".toList) (hlen : parts.length < 6) :
    verifyPasswordTry argon2 pbkdf2 password parts = .error () := by
  simp only [verifyPasswordTry, hhead]
  rcases parts with _ | ⟨p0, _ | ⟨p1, _ | ⟨p2, _ | ⟨p3, _ | ⟨p4,
    _ | ⟨p5, rest⟩⟩⟩⟩⟩⟩
  · simp
  · simp
  · simp
  · simp
  · simp
  · simp
  · simp only [List.length_cons] at hlen
    omega

/-- An algorithm tag that is neither `argon2` nor `pbkdf2` makes the
`try` body return `false` directly. -/
theorem verifyPasswordTry_unknown (argon2 : Option Argon2Mod)
    (pbkdf2 : Pbkdf2) (password : List Char) (parts : List (List Char))
    (h1 : parts.headD [] ≠ "argon2".toList)
    (h2 : parts.headD [] ≠ "pbkdf2".toList) :
    verifyPasswordTry argon2 pbkdf2 password parts = .ok false := by
  simp only [verifyPasswordTry]
  rw [if_neg h1, if_neg h2]

end PW

/-- C7: password-hash self-description, in four parts.
(a) `verifyPassword(pw, hashPassword(pw))` is `true` for every password,
every salt-oracle outcome, and every instantiation of the PBKDF2
primitive — verification re-parses the self-describing format string and
recomputes the digest under identical parameters.
(b) `verifyPassword(wrongPw, hashPassword(pw))` is `false` whenever the
PBKDF2 digests of the two passwords differ under the stored parameters
(the standing cryptographic assumption that distinct passwords do not
collide; a collision is the only way the code could answer `true`).
(c) a hash string whose algorithm tag is neither `pbkdf2` nor `argon2`
verifies `false`.
(d) a pbkdf2-tagged hash string with fewer than six `:`-separated fields
makes the `try` body throw and the catch-all return `false`.
`verifyPassword` is a total `Bool`-valued function, so it never throws:
every internal exception is represented by the caught `Except.error`. -/
theorem C7_password_hash_self_description :
    (∀ (argon2 : Option PW.Argon2Mod) (pbkdf2 : PW.Pbkdf2),
      (∀ pw s i l, ∀ b ∈ pbkdf2 pw s i l, b < 256) →
      ∀ (password : List Char) (options : PW.HashOptions) (salt : List Nat),
        (∀ b ∈ salt, b < 256) →
        (PW.resolveOptions options).algorithm = PW.Alg.pbkdf2 →
        ∀ h, PW.hashPassword argon2 pbkdf2 password options salt =
            Except.ok h →
          PW.verifyPassword argon2 pbkdf2 password h = true) ∧
    (∀ (argon2 : Option PW.Argon2Mod) (pbkdf2 : PW.Pbkdf2),
      (∀ pw s i l, ∀ b ∈ pbkdf2 pw s i l, b < 256) →
      ∀ (password wrongPw : List Char) (options : PW.HashOptions)
        (salt : List Nat),
        (∀ b ∈ salt, b < 256) →
        (PW.resolveOptions options).algorithm = PW.Alg.pbkdf2 →
        pbkdf2 wrongPw salt (PW.resolveOptions options).iterations
            (PW.resolveOptions options).hashLength ≠
          pbkdf2 password salt (PW.resolveOptions options).iterations
            (PW.resolveOptions options).hashLength →
        ∀ h, PW.hashPassword argon2 pbkdf2 password options salt =
            Except.ok h →
          PW.verifyPassword argon2 pbkdf2 wrongPw h = false) ∧
    (∀ (argon2 : Option PW.Argon2Mod) (pbkdf2 : PW.Pbkdf2)
        (password hash : List Char),
        (JS.splitOnChar ':' hash).headD [] ≠ "argon2".toList →
        (JS.splitOnChar ':' hash).headD [] ≠ "pbkdf2".toList →
        PW.verifyPassword argon2 pbkdf2 password hash = false) ∧
    (∀ (argon2 : Option PW.Argon2Mod) (pbkdf2 : PW.Pbkdf2)
        (password hash : List Char),
        (JS.splitOnChar ':' hash).headD [] = "pbkdf2".toList →
        (JS.splitOnChar ':' hash).length < 6 →
        PW.verifyPassword argon2 pbkdf2 password hash = false) := by
  refine ⟨?_, ?_, ?_, ?_⟩
  · intro argon2 pbkdf2 hp password options salt hs halg h hok
    simp only [PW.hashPassword, halg, Except.ok.injEq] at hok
    subst hok
    rw [PW.verifyPassword_format argon2 pbkdf2 password _ _ _ salt hs _
      (hp password salt _ _)]
    simp [PW.ctCompare_self]
  · intro argon2 pbkdf2 hp password wrongPw options salt hs halg hne h hok
    simp only [PW.hashPassword, halg, Except.ok.injEq] at hok
    subst hok
    rw [PW.verifyPassword_format argon2 pbkdf2 wrongPw _ _ _ salt hs _
      (hp password salt _ _)]
    by_cases hlen : (pbkdf2 wrongPw salt (PW.resolveOptions options).iterations
        (PW.resolveOptions options).hashLength).length =
        (pbkdf2 password salt (PW.resolveOptions options).iterations
          (PW.resolveOptions options).hashLength).length
    · have : PW.ctCompare (pbkdf2 wrongPw salt
          (PW.resolveOptions options).iterations
          (PW.resolveOptions options).hashLength)
          (pbkdf2 password salt (PW.resolveOptions options).iterations
            (PW.resolveOptions options).hashLength) = false := by
        rcases hb : PW.ctCompare _ _ with _ | _
        · rfl
        · exact absurd ((PW.ctCompare_iff _ _ hlen).mp hb) hne
      simp [this]
    · simp [hlen]
  · intro argon2 pbkdf2 password hash h1 h2
    by_cases hnil : hash = []
    · simp [PW.verifyPassword, hnil]
    · simp only [PW.verifyPassword, if_neg hnil,
        PW.verifyPasswordTry_unknown argon2 pbkdf2 password _ h1 h2]
  · intro argon2 pbkdf2 password hash hhead hlen
    by_cases hnil : hash = []
    · rw [hnil] at hhead
      exact absurd hhead (by decide)
    · simp only [PW.verifyPassword, if_neg hnil,
        PW.verifyPasswordTry_short argon2 pbkdf2 password _ hhead hlen]

namespace Fixtures

/-- Concrete instantiation of the PBKDF2 primitive for witnesses: the
digest is the password length (mod 256), so distinct-length passwords
have distinct digests. -/
def pbkdf2Len : PW.Pbkdf2 := fun pw _ _ _ => [pw.length % 256]

theorem pbkdf2Len_lt : ∀ pw s i l, ∀ b ∈ pbkdf2Len pw s i l, b < 256 := by
  intro pw s i l b hb
  simp only [pbkdf2Len, List.mem_singleton] at hb
  omega

end Fixtures

/-- C7 (witness): the four parts of the self-description theorem applied
at concrete inputs. -/
theorem C7_witness :
    PW.verifyPassword none Fixtures.pbkdf2Len "a".toList
      ("pbkdf2".toList ++ ':' :: (PW.toDecimal 100000 ++ ':' ::
        (PW.toDecimal 16 ++ ':' :: (PW.toDecimal 32 ++ ':' ::
          (PW.toHex [1, 2] ++ ':' ::
            PW.toHex (Fixtures.pbkdf2Len "a".toList [1, 2] 100000 32)))))) =
      true ∧
    PW.verifyPassword none Fixtures.pbkdf2Len "bb".toList
      ("pbkdf2".toList ++ ':' :: (PW.toDecimal 100000 ++ ':' ::
        (PW.toDecimal 16 ++ ':' :: (PW.toDecimal 32 ++ ':' ::
          (PW.toHex [1, 2] ++ ':' ::
            PW.toHex (Fixtures.pbkdf2Len "a".toList [1, 2] 100000 32)))))) =
      false ∧
    PW.verifyPassword none Fixtures.pbkdf2Len "a".toList
      ("md5:deadbeef".toList) = false ∧
    PW.verifyPassword none Fixtures.pbkdf2Len "a".toList
      ("pbkdf2:100000".toList) = false :=
  ⟨C7_password_hash_self_description.1 none Fixtures.pbkdf2Len
    Fixtures.pbkdf2Len_lt "a".toList {} [1, 2] (by decide) rfl _ rfl,
   C7_password_hash_self_description.2.1 none Fixtures.pbkdf2Len
    Fixtures.pbkdf2Len_lt "a".toList "bb".toList {} [1, 2] (by decide) rfl
    (by decide) _ rfl,
   C7_password_hash_self_description.2.2.1 none Fixtures.pbkdf2Len
    "a".toList ("md5:deadbeef".toList) (by decide) (by decide),
   C7_password_hash_self_description.2.2.2 none Fixtures.pbkdf2Len
    "a".toList ("pbkdf2:100000".toList) (by decide) (by decide)⟩

/-- C8 (counterexample): verifying a password against an argon2-tagged
hash with the module not installed does NOT fail with a thrown
configuration error — the `throw` inside `verifyPassword`'s `try` block
is swallowed by its own `catch`, and the call returns the value
`false`. -/
theorem C8_counterexample :
    PW.verifyPassword none Fixtures.pbkdf2Len "pw".toList
      ("argon2:x".toList) = false := by
  decide

/-- C8 (amended): when the argon2 algorithm is selected and the optional
`@node-rs/argon2` module is not installed, `hashPassword` throws a
configuration error whose message names the missing dependency; but
`verifyPassword` on an argon2-tagged hash returns `false` instead of
throwing, because its catch-all swallows the internal error. -/
theorem C8_argon2_missing_module :
    (∀ (pbkdf2 : PW.Pbkdf2) (password : List Char)
        (options : PW.HashOptions) (salt : List Nat),
      (PW.resolveOptions options).algorithm = PW.Alg.argon2 →
      PW.hashPassword none pbkdf2 password options salt =
        Except.error (("Argon2 requested but @node-rs/argon2 is not "
          ++ "installed. Install it with: npm install "
          ++ "@node-rs/argon2").toList)) ∧
    (∀ (pbkdf2 : PW.Pbkdf2) (password hash : List Char),
      (JS.splitOnChar ':' hash).headD [] = "argon2".toList →
      PW.verifyPassword none pbkdf2 password hash = false) := by
  constructor
  · intro pbkdf2 password options salt halg
    simp [PW.hashPassword, halg]
  · intro pbkdf2 password hash hhead
    by_cases hnil : hash = []
    · rw [hnil] at hhead
      exact absurd hhead (by decide)
    · have htry : PW.verifyPasswordTry none pbkdf2 password
          (JS.splitOnChar ':' hash) = .error () := by
        simp only [PW.verifyPasswordTry, hhead]
        simp
      simp only [PW.verifyPassword, if_neg hnil, htry]

/-- C8 (witness): both parts applied at a concrete input. -/
theorem C8_witness :
    PW.hashPassword none Fixtures.pbkdf2Len "pw".toList
      ⟨some PW.Alg.argon2, none, none, none⟩ [] =
      Except.error (("Argon2 requested but @node-rs/argon2 is not "
        ++ "installed. Install it with: npm install "
        ++ "@node-rs/argon2").toList) ∧
    PW.verifyPassword none Fixtures.pbkdf2Len "pw".toList
      ("argon2:somehash".toList) = false :=
  ⟨C8_argon2_missing_module.1 Fixtures.pbkdf2Len "pw".toList
    ⟨some PW.Alg.argon2, none, none, none⟩ [] rfl,
   C8_argon2_missing_module.2 Fixtures.pbkdf2Len "pw".toList
    ("argon2:somehash".toList) (by decide)⟩

namespace MW

/-- A single route pattern test of `createProtectedRoutesMiddleware`:
a pattern ending in `'*'` (`route.endsWith('*')`, i.e. its last
character is `'*'`) matches any pathname having the pattern minus the
`'*'` (`route.slice(0, -1)`) as a prefix
(`pathname.startsWith(...)`); any other pattern matches exactly
(`pathname === route`). -/
def routeMatches (route pathname : List Char) : Bool :=
  if route.getLast? == some '*' then List.isPrefixOf route.dropLast pathname
  else pathname == route

/-- `MiddlewareOptions` as destructured by
`createProtectedRoutesMiddleware`, with its defaults.  The `authorize`
callback receives the event and session; only the session can influence
the modelled outcome, so it is modelled as a predicate on the session. -/
structure MiddlewareOptions (σ : Type) where
  protectedRoutes : List (List Char) := []
  publicRoutes : List (List Char) := []
  authorize : Option (Option σ → Bool) := none
  unauthorizedRedirect : List Char := "/auth/signin".toList

/-- Outcome of one request through the middleware: either the request is
passed on to `resolve`, or a 302 redirect to `unauthorizedRedirect`
carrying `callbackUrl = pathname` as a query parameter. -/
inductive Outcome
  | resolved
  | redirect (target : List Char) (callbackUrl : List Char)
deriving DecidableEq, Repr

/-- The decision logic of the `Handle` returned by
`createProtectedRoutesMiddleware` (`middleware/index.ts` lines
221-276): public routes resolve immediately; a route that is not
protected resolves without a check only when the protected-routes list
is nonempty (`!isProtected && protectedRoutes.length > 0`); otherwise
the `authorize` callback (if any) or the presence of a session
decides. -/
def protectedRoutesHandle (opts : MiddlewareOptions σ)
    (pathname : List Char) (session : Option σ) : Outcome :=
  if opts.publicRoutes.any (fun route => routeMatches route pathname) then
    .resolved
  else if ¬ (opts.protectedRoutes.any (fun route =>
      routeMatches route pathname)) ∧ opts.protectedRoutes.length > 0 then
    .resolved
  else
    match opts.authorize with
    | some f =>
        if ¬ f session then .redirect opts.unauthorizedRedirect pathname
        else .resolved
    | none =>
        if session.isNone then .redirect opts.unauthorizedRedirect pathname
        else .resolved

end MW

/-- C4 (counterexample): with an empty protected-routes list, an empty
public-routes list and no `authorize` callback, a request for `/x`
without a session is NOT resolved — it is redirected to the sign-in
page, because the pass-through branch requires
`protectedRoutes.length > 0`. -/
theorem C4_counterexample :
    MW.protectedRoutesHandle
      (⟨[], [], none, "/auth/signin".toList⟩ : MW.MiddlewareOptions Unit)
      "/x".toList none =
      MW.Outcome.redirect "/auth/signin".toList "/x".toList ∧
    MW.Outcome.redirect "/auth/signin".toList "/x".toList ≠
      MW.Outcome.resolved := by
  constructor
  · rfl
  · decide

/-- C4 (amended): (1) a pattern ending in `'*'` matches exactly the
pathnames having the pattern minus the `'*'` as a prefix, any other
pattern matches exactly; (2) a pathname matching a public route resolves
with no auth check, even if it also matches a protected route; (3) with
a nonempty protected-routes list, a non-public non-protected pathname
resolves without requiring a session; (4) but when the protected-routes
list is empty, a non-public pathname (with no `authorize` callback)
requires a session: it resolves exactly when a session is present. -/
theorem C4_route_protection_dispatch :
    (∀ route pathname : List Char,
      (route.getLast? = some '*' →
        MW.routeMatches route pathname =
          List.isPrefixOf route.dropLast pathname) ∧
      (route.getLast? ≠ some '*' →
        MW.routeMatches route pathname = (pathname == route))) ∧
    (∀ {σ : Type} (opts : MW.MiddlewareOptions σ) (pathname : List Char)
        (session : Option σ),
      opts.publicRoutes.any (fun route => MW.routeMatches route pathname) =
        true →
      MW.protectedRoutesHandle opts pathname session = .resolved) ∧
    (∀ {σ : Type} (opts : MW.MiddlewareOptions σ) (pathname : List Char)
        (session : Option σ),
      opts.publicRoutes.any (fun route => MW.routeMatches route pathname) =
        false →
      opts.protectedRoutes.any (fun route => MW.routeMatches route pathname) =
        false →
      opts.protectedRoutes ≠ [] →
      MW.protectedRoutesHandle opts pathname session = .resolved) ∧
    (∀ {σ : Type} (opts : MW.MiddlewareOptions σ) (pathname : List Char)
        (session : Option σ),
      opts.publicRoutes.any (fun route => MW.routeMatches route pathname) =
        false →
      opts.protectedRoutes = [] →
      opts.authorize = none →
      (MW.protectedRoutesHandle opts pathname session = .resolved ↔
        session.isSome)) := by
  refine ⟨?_, ?_, ?_, ?_⟩
  · intro route pathname
    constructor
    · intro h
      simp [MW.routeMatches, h]
    · intro h
      simp [MW.routeMatches, h]
  · intro σ opts pathname session hpub
    simp [MW.protectedRoutesHandle, hpub]
  · intro σ opts pathname session hpub hprot hne
    have hlen : opts.protectedRoutes.length > 0 := by
      cases hl : opts.protectedRoutes
      · exact absurd hl hne
      · simp [hl]
    simp [MW.protectedRoutesHandle, hpub, hprot, hlen]
  · intro σ opts pathname session hpub hprot hauth
    simp only [MW.protectedRoutesHandle, hpub, Bool.false_eq_true,
      if_false, hprot, hauth, List.length_nil, gt_iff_lt, Nat.lt_irrefl,
      and_false, if_false]
    cases session <;> simp

/-- C4 (witness): the four parts applied at concrete inputs. -/
theorem C4_witness :
    MW.routeMatches "/admin/*".toList "/admin/users".toList = true ∧
    MW.protectedRoutesHandle
      (⟨["/admin/*".toList], ["/admin/login".toList], none,
        "/auth/signin".toList⟩ : MW.MiddlewareOptions Unit)
      "/admin/login".toList none = .resolved ∧
    MW.protectedRoutesHandle
      (⟨["/admin/*".toList], [], none, "/auth/signin".toList⟩ :
        MW.MiddlewareOptions Unit) "/about".toList none = .resolved ∧
    MW.protectedRoutesHandle
      (⟨[], [], none, "/auth/signin".toList⟩ : MW.MiddlewareOptions Unit)
      "/x".toList (some ()) = .resolved :=
  ⟨by
    have h := (C4_route_protection_dispatch.1 "/admin/*".toList
      "/admin/users".toList).1 (by decide)
    rw [h]
    decide,
   C4_route_protection_dispatch.2.1
     (⟨["/admin/*".toList], ["/admin/login".toList], none,
       "/auth/signin".toList⟩ : MW.MiddlewareOptions Unit)
     "/admin/login".toList none (by decide),
   C4_route_protection_dispatch.2.2.1
     (⟨["/admin/*".toList], [], none, "/auth/signin".toList⟩ :
       MW.MiddlewareOptions Unit) "/about".toList none (by decide)
     (by decide) (by decide),
   (C4_route_protection_dispatch.2.2.2
     (⟨[], [], none, "/auth/signin".toList⟩ : MW.MiddlewareOptions Unit)
     "/x".toList (some ()) (by decide) rfl rfl).mpr (by decide)⟩

namespace Routes

/-- JavaScript truthiness of an optional string (query parameter or
cookie): `null`/`undefined` and the empty string are falsy. -/
def truthy : Option (List Char) → Bool
  | none => false
  | some s => !(s == [])

/-- Value returned by the configured `signIn` callback: `false` (deny),
a string (custom redirect URL), or `true`/`undefined` (proceed). -/
inductive SignInResult
  | deny
  | redirectTo (url : List Char)
  | proceed
deriving DecidableEq, Repr

/-- Outcome of an awaited network step inside the route handler's `try`
block: a value, or a rejected promise (`thrown`) that the `catch` turns
into a 500 response. -/
inductive OrThrow (α : Type)
  | ok (a : α)
  | thrown
deriving DecidableEq, Repr

/-- The `Location` of a 302 response: either a verbatim URL string, or a
URL built from a target page plus query parameters (as produced by
`new URL(...)` + `searchParams.set`). -/
inductive Loc
  | url (u : List Char)
  | page (target : List Char) (params : List (List Char × List Char))
deriving DecidableEq, Repr

/-- The observable part of a handler's `Response`: status, optional
`Location`, optional JSON error body tag. -/
structure ResponseM where
  status : Nat
  location : Option Loc := none
  jsonError : Option (List Char) := none
deriving DecidableEq, Repr

/-- Cookie effects of a handler, in program order.  Cookie values are
irrelevant to the checked claims and are elided; only names are kept. -/
inductive CookieOp
  | set (name : List Char)
  | delete (name : List Char)
deriving DecidableEq, Repr

/-- The configuration data the two handlers read. -/
structure RoutesConfig where
  basePath : List Char := "/auth".toList
  cookieName : List Char := "sveltekit-auth.session-token".toList
  pagesError : Option (List Char) := none
deriving DecidableEq, Repr

/-- `config.pages.error ?? basePath + '/signin'`, the target of the
error redirects. -/
def errorPageTarget (cfg : RoutesConfig) : List Char :=
  cfg.pagesError.getD (cfg.basePath ++ "/signin".toList)

/-- The request-dependent inputs of `handleOAuthCallback`
(`middleware/routes.ts` lines 603-785).  The two outbound fetches (token
exchange; profile fetch plus the profile-to-user mapping, which cannot
fail short of a thrown network error) are oracles passed in as data. -/
structure OAuthCallbackInput (υ : Type) where
  providerIsOAuth : Bool
  stateParam : Option (List Char)
  stateCookie : Option (List Char)
  errorParam : Option (List Char)
  codeParam : Option (List Char)
  callbackUrlCookie : Option (List Char)
  tokenExchange : OrThrow Bool
  userStep : OrThrow υ

/-- `handleOAuthCallback`: provider lookup (404), state verification
(`!state || state !== storedState` → 400 *before* any cookie write),
state-cookie deletion, provider `error` parameter, missing code, token
exchange, profile/user step, `signIn` callback, session issuance and
final redirect.  Returns the response together with the cookie
operations in program order. -/
def handleOAuthCallback (cfg : RoutesConfig)
    (signInCb : Option (υ → SignInResult)) (inp : OAuthCallbackInput υ) :
    ResponseM × List CookieOp :=
  if ¬ inp.providerIsOAuth then
    ({status := 404, jsonError := some "Provider not found".toList}, [])
  else if ¬ truthy inp.stateParam ∨ inp.stateParam ≠ inp.stateCookie then
    ({status := 400, jsonError := some "Invalid state".toList}, [])
  else
    let ops := [CookieOp.delete (cfg.cookieName ++ ".state".toList)]
    if truthy inp.errorParam then
      ({status := 302, location := some (.page (errorPageTarget cfg)
        [("error".toList, inp.errorParam.getD [])])}, ops)
    else if ¬ truthy inp.codeParam then
      ({status := 400,
        jsonError := some "Missing authorization code".toList}, ops)
    else
      match inp.tokenExchange with
      | .thrown =>
          ({status := 500, jsonError := some "Authentication failed".toList},
            ops)
      | .ok false =>
          ({status := 500, jsonError := some "Token exchange failed".toList},
            ops)
      | .ok true =>
          match inp.userStep with
          | .thrown =>
              ({status := 500,
                jsonError := some "Authentication failed".toList}, ops)
          | .ok user =>
              let finish : ResponseM × List CookieOp :=
                ({status := 302, location := some (.url
                    (inp.callbackUrlCookie.getD "/".toList))},
                  ops ++ [CookieOp.set cfg.cookieName,
                    CookieOp.delete (cfg.cookieName ++
                      ".callback-url".toList)])
              match signInCb with
              | some cb =>
                  match cb user with
                  | .deny =>
                      ({status := 302, location := some (.page
                        (errorPageTarget cfg)
                        [("error".toList, "AccessDenied".toList)])}, ops)
                  | .redirectTo u =>
                      ({status := 302, location := some (.url u)}, ops)
                  | .proceed => finish
              | none => finish

/-- Provider lookup result for the `POST /signin/:provider` handler. -/
inductive ProviderKind
  | missing
  | oauthKind
  | credentialsKind
deriving DecidableEq, Repr

/-- The request-dependent inputs of `handleSignIn`
(`middleware/routes.ts` lines 448-527): the provider lookup outcome, the
result of `credentials.authorize` (a user, `null`, or a throw), and the
form's `callbackUrl` field. -/
structure SignInInput (υ : Type) where
  provider : ProviderKind
  authorizeResult : OrThrow (Option υ)
  callbackUrlForm : Option (List Char)

/-- `handleSignIn` for the credentials `POST /signin/:provider` path:
404 for an unknown provider, 400 for an OAuth provider, 500 when
`authorize` throws, a `CredentialsSignin` error redirect when it returns
`null`, and — when the `signIn` callback denies — a **403 JSON
response**, not a redirect. -/
def handleSignIn (cfg : RoutesConfig)
    (signInCb : Option (υ → SignInResult)) (inp : SignInInput υ) :
    ResponseM × List CookieOp :=
  match inp.provider with
  | .missing =>
      ({status := 404, jsonError := some "Provider not found".toList}, [])
  | .oauthKind =>
      ({status := 400,
        jsonError := some "Use GET request for OAuth providers".toList}, [])
  | .credentialsKind =>
      match inp.authorizeResult with
      | .thrown =>
          ({status := 500, jsonError := some "Sign in failed".toList}, [])
      | .ok none =>
          ({status := 302, location := some (.page (errorPageTarget cfg)
            [("error".toList, "CredentialsSignin".toList)])}, [])
      | .ok (some user) =>
          let finish : ResponseM × List CookieOp :=
            ({status := 302, location := some (.url
                (inp.callbackUrlForm.getD "/".toList))},
              [CookieOp.set cfg.cookieName])
          match signInCb with
          | some cb =>
              match cb user with
              | .deny =>
                  ({status := 403,
                    jsonError := some "Sign in not allowed".toList}, [])
              | .redirectTo u =>
                  ({status := 302, location := some (.url u)}, [])
              | .proceed => finish
          | none => finish

/-- The state verification of `handleOAuthCallback` succeeds: the query
parameter is present, nonempty, and equal to the stored cookie. -/
def stateOk (inp : OAuthCallbackInput υ) : Prop :=
  truthy inp.stateParam = true ∧ inp.stateParam = inp.stateCookie

instance (inp : OAuthCallbackInput υ) : Decidable (stateOk inp) := by
  unfold stateOk
  infer_instance

end Routes

/-- C3 (counterexample): on a state mismatch (`state=a` in the query,
`b` in the cookie) the response is HTTP 400 — but the cookie-operation
list is empty: the state cookie is NOT deleted on the failure path,
because `cookies.delete` runs only after the verification has
succeeded. -/
theorem C3_counterexample :
    Routes.handleOAuthCallback
      (⟨"/auth".toList, "c".toList, none⟩ : Routes.RoutesConfig)
      (none : Option (Unit → Routes.SignInResult))
      ⟨true, some "a".toList, some "b".toList, none, none, none,
        .ok true, .ok ()⟩ =
      ({status := 400, jsonError := some "Invalid state".toList}, []) ∧
    Routes.CookieOp.delete ("c".toList ++ ".state".toList) ∉
      ([] : List Routes.CookieOp) := by
  exact ⟨rfl, by simp⟩

/-- C3 (amended): on a GET to `/callback/:provider` with the provider
configured, if the `state` query parameter is missing, empty, or
different from the stored state cookie, the response is HTTP 400 and NO
cookie is touched — in particular the state cookie is not deleted on the
failure path; when the state verification succeeds, the state cookie is
deleted before anything else, on every continuation path. -/
theorem C3_state_cookie_deleted_only_on_success :
    (∀ {υ : Type} (cfg : Routes.RoutesConfig)
        (cb : Option (υ → Routes.SignInResult))
        (inp : Routes.OAuthCallbackInput υ),
      inp.providerIsOAuth = true → ¬ Routes.stateOk inp →
      Routes.handleOAuthCallback cfg cb inp =
        ({status := 400, jsonError := some "Invalid state".toList}, [])) ∧
    (∀ {υ : Type} (cfg : Routes.RoutesConfig)
        (cb : Option (υ → Routes.SignInResult))
        (inp : Routes.OAuthCallbackInput υ),
      inp.providerIsOAuth = true → Routes.stateOk inp →
      Routes.CookieOp.delete (cfg.cookieName ++ ".state".toList) ∈
        (Routes.handleOAuthCallback cfg cb inp).2) := by
  constructor
  · intro υ cfg cb inp hp hns
    unfold Routes.handleOAuthCallback
    rw [if_neg (by simp [hp]), if_pos ?_]
    by_cases ht : Routes.truthy inp.stateParam = true
    · right
      intro heq
      exact hns ⟨ht, heq⟩
    · left
      simpa using ht
  · intro υ cfg cb inp hp hs
    obtain ⟨ht, heq⟩ := hs
    unfold Routes.handleOAuthCallback
    rw [if_neg (by simp [hp]), if_neg (fun hcond => Or.elim hcond
      (fun hn => hn (by simp [ht])) (fun hn => hn heq))]
    by_cases he : Routes.truthy inp.errorParam = true
    · simp [he]
    · simp only [Bool.not_eq_true] at he
      by_cases hc : Routes.truthy inp.codeParam = true
      · simp only [he, hc, Bool.false_eq_true, if_false, not_true,
          if_neg (by simp : ¬ ¬ True)]
        rcases hte : inp.tokenExchange with b | _
        · cases b
          · simp
          · rcases hus : inp.userStep with u | _
            · rcases cb with _ | f
              · simp
              · rcases hfu : f u with _ | u' | _ <;> simp [hfu]
            · simp
        · simp
      · simp only [Bool.not_eq_true] at hc
        simp [he, hc]

/-- C3 (witness): both parts applied at concrete inputs. -/
theorem C3_witness :
    Routes.handleOAuthCallback
      (⟨"/auth".toList, "c".toList, none⟩ : Routes.RoutesConfig)
      (none : Option (Unit → Routes.SignInResult))
      ⟨true, none, some "b".toList, none, none, none, .ok true, .ok ()⟩ =
      ({status := 400, jsonError := some "Invalid state".toList}, []) ∧
    Routes.CookieOp.delete ("c".toList ++ ".state".toList) ∈
      (Routes.handleOAuthCallback
        (⟨"/auth".toList, "c".toList, none⟩ : Routes.RoutesConfig)
        (none : Option (Unit → Routes.SignInResult))
        ⟨true, some "s".toList, some "s".toList, none, some "code".toList,
          none, .ok true, .ok ()⟩).2 :=
  ⟨C3_state_cookie_deleted_only_on_success.1
    (⟨"/auth".toList, "c".toList, none⟩ : Routes.RoutesConfig) none
    ⟨true, none, some "b".toList, none, none, none, .ok true, .ok ()⟩
    rfl (by decide),
   C3_state_cookie_deleted_only_on_success.2
    (⟨"/auth".toList, "c".toList, none⟩ : Routes.RoutesConfig) none
    ⟨true, some "s".toList, some "s".toList, none, some "code".toList,
      none, .ok true, .ok ()⟩ rfl (by decide)⟩

/-- C5 (counterexample): on the credentials `POST /signin/:provider`
path, a `signIn` callback returning `false` yields a 403 JSON response
`Sign in not allowed` with no `Location` header — not a redirect to the
error page with `error=AccessDenied`. -/
theorem C5_counterexample :
    Routes.handleSignIn
      (⟨"/auth".toList, "c".toList, none⟩ : Routes.RoutesConfig)
      (some (fun _ => Routes.SignInResult.deny))
      (⟨.credentialsKind, .ok (some ()), none⟩ : Routes.SignInInput Unit) =
      ({status := 403, jsonError := some "Sign in not allowed".toList},
        []) ∧
    ({status := 403, jsonError := some "Sign in not allowed".toList} :
      Routes.ResponseM).location = none ∧ (403 : Nat) ≠ 302 := by
  exact ⟨rfl, rfl, by decide⟩

/-- C5 (amended): when the configured `signIn` callback returns `false`,
the OAuth `GET /callback/:provider` path redirects (302) to the error
page with `error=AccessDenied` (deleting the state cookie but issuing no
session); the credentials `POST /signin/:provider` path instead answers
403 with the JSON body `Sign in not allowed` and performs no redirect
and no cookie operation. -/
theorem C5_signin_callback_denial :
    (∀ {υ : Type} (cfg : Routes.RoutesConfig)
        (f : υ → Routes.SignInResult) (inp : Routes.OAuthCallbackInput υ)
        (user : υ),
      inp.providerIsOAuth = true → Routes.stateOk inp →
      Routes.truthy inp.errorParam = false →
      Routes.truthy inp.codeParam = true →
      inp.tokenExchange = .ok true → inp.userStep = .ok user →
      f user = .deny →
      Routes.handleOAuthCallback cfg (some f) inp =
        ({status := 302, location := some (.page
            (Routes.errorPageTarget cfg)
            [("error".toList, "AccessDenied".toList)])},
          [Routes.CookieOp.delete (cfg.cookieName ++ ".state".toList)])) ∧
    (∀ {υ : Type} (cfg : Routes.RoutesConfig)
        (f : υ → Routes.SignInResult) (inp : Routes.SignInInput υ)
        (user : υ),
      inp.provider = .credentialsKind →
      inp.authorizeResult = .ok (some user) →
      f user = .deny →
      Routes.handleSignIn cfg (some f) inp =
        ({status := 403, jsonError := some "Sign in not allowed".toList},
          [])) := by
  constructor
  · intro υ cfg f inp user hp hs he hc hte hus hfu
    obtain ⟨ht, heq⟩ := hs
    unfold Routes.handleOAuthCallback
    rw [if_neg (by simp [hp]), if_neg (fun hcond => Or.elim hcond
      (fun hn => hn (by simp [ht])) (fun hn => hn heq))]
    simp [he, hc, hte, hus, hfu]
  · intro υ cfg f inp user hp ha hfu
    unfold Routes.handleSignIn
    rw [hp, ha]
    simp [hfu]

/-- C5 (witness): both parts applied at concrete inputs. -/
theorem C5_witness :
    Routes.handleOAuthCallback
      (⟨"/auth".toList, "c".toList, none⟩ : Routes.RoutesConfig)
      (some (fun _ => Routes.SignInResult.deny))
      (⟨true, some "s".toList, some "s".toList, none, some "code".toList,
        none, .ok true, .ok ()⟩ : Routes.OAuthCallbackInput Unit) =
      ({status := 302, location := some (.page
          ("/auth".toList ++ "/signin".toList)
          [("error".toList, "AccessDenied".toList)])},
        [Routes.CookieOp.delete ("c".toList ++ ".state".toList)]) ∧
    Routes.handleSignIn
      (⟨"/auth".toList, "c".toList, none⟩ : Routes.RoutesConfig)
      (some (fun _ => Routes.SignInResult.deny))
      (⟨.credentialsKind, .ok (some ()), none⟩ : Routes.SignInInput Unit) =
      ({status := 403, jsonError := some "Sign in not allowed".toList},
        []) :=
  ⟨C5_signin_callback_denial.1
    (⟨"/auth".toList, "c".toList, none⟩ : Routes.RoutesConfig)
    (fun _ => Routes.SignInResult.deny)
    ⟨true, some "s".toList, some "s".toList, none, some "code".toList,
      none, .ok true, .ok ()⟩ () rfl (by decide) rfl rfl rfl rfl rfl,
   C5_signin_callback_denial.2
    (⟨"/auth".toList, "c".toList, none⟩ : Routes.RoutesConfig)
    (fun _ => Routes.SignInResult.deny)
    ⟨.credentialsKind, .ok (some ()), none⟩ () rfl rfl rfl⟩
